import Mathlib

/-! PDF-Converter: the `/convert` route of `server.js`

A shallow embedding of `src/server.js`: the promise wrapper `convertAsync`
(lines 12-45) and the handler of `POST /convert` (lines 64-127).

What Node and the npm packages provide is not code of the repository and is
taken as a parameter (`Host`): the platform string, the `LIBRE_OFFICE_EXE`
environment variable, `os.tmpdir()`, the `path` module, the random suffix of
`mkdtempSync`, the external process behind `execFile` and the
`libreoffice-convert` bridge.  The file system is a concrete finite map from
paths to nodes.  `console.log` / `console.error` have no effect on anything
the route returns and are left out.
-/

namespace PdfConverter

/-! ## JavaScript values -/

/-- A buffer of bytes (`Buffer`). -/
abbrev Bytes := List Nat

/-- The JavaScript values a failure may carry: `undefined`, `null`, booleans,
strings, `Error` instances (with their `name` and `message`, both strings) and
plain objects (with their `message` property, `undefined` when they have
none).  Numbers are left out: their string rendering is floating-point
formatting. -/
inductive JsVal where
  | undefined : JsVal
  | null : JsVal
  | bool (b : Bool) : JsVal
  | str (s : String) : JsVal
  | error (name message : String) : JsVal
  | obj (message : JsVal) : JsVal
  deriving DecidableEq, Repr

/-- JavaScript truthiness (`if (v)`, `v && ...`, `v || ...`). -/
def JsVal.truthy : JsVal → Bool
  | .undefined => false
  | .null => false
  | .bool b => b
  | .str s => s != ""
  | .error _ _ => true
  | .obj _ => true

/-- Property read `v.message` on a value that is neither `undefined` nor
`null`: primitives have no such property. -/
def JsVal.message : JsVal → JsVal
  | .error _ m => .str m
  | .obj m => m
  | _ => .undefined

/-- The conversion `String(v)`; for an `Error` it is `Error.prototype.toString`:
the message when the name is empty, the name when the message is empty,
otherwise the name, a colon and a blank, the message. -/
def JsVal.toStr : JsVal → String
  | .undefined => "undefined"
  | .null => "null"
  | .bool true => "true"
  | .bool false => "false"
  | .str s => s
  | .error n m => if n = "" then m else if m = "" then n else n ++ ": " ++ m
  | .obj _ => "[object Object]"

/-- The operator `a && b`. -/
def JsVal.and (a b : JsVal) : JsVal := if a.truthy then b else a

/-- The operator `a || b`. -/
def JsVal.or (a b : JsVal) : JsVal := if a.truthy then a else b

/-- The operator `a || b` on strings. -/
def strOr (a b : String) : String := if a != "" then a else b

/-- The operator `a || b` where `a` is a string or `undefined` (`none`). -/
def optOr (a : Option String) (b : String) : String :=
  match a with
  | some s => strOr s b
  | none => b

/-- Truthiness of a string or `undefined`. -/
def optTruthy (a : Option String) : Bool :=
  match a with
  | some s => s != ""
  | none => false

/-- The value of `new Error(message)`: its name is `Error`. -/
abbrev newError (message : String) : JsVal := .error "Error" message

/-- The value written to the `error` field at line 122:
`(err && err.message) || String(err)`. -/
def errorField (err : JsVal) : JsVal :=
  (err.and err.message).or (.str err.toStr)

/-! ## The `path` module -/

/-- The functions of Node's `path` module that `server.js` calls.  Which
implementation is in force (`path.win32` or `path.posix`) depends on the
platform, so it is a parameter. -/
structure PathMod where
  join : String → String → String
  dirname : String → String
  basename : String → String → String
  extname : String → String

/-! ## File system -/

/-- A node of the file system. -/
inductive Node where
  | file (content : Bytes) : Node
  | dir : Node
  deriving DecidableEq, Repr

/-- The file system: a finite map from paths to nodes. -/
abbrev FS := List (String × Node)

/-- The node at a path. -/
def FS.node (fs : FS) (p : String) : Option Node := List.lookup p fs

/-- Remove the node at a path. -/
def FS.remove (fs : FS) (p : String) : FS := fs.filter (fun e => e.1 != p)

/-- Write a node at a path. -/
def FS.put (fs : FS) (p : String) (n : Node) : FS := (p, n) :: fs.remove p

/-- Whether one list of characters comes before another, or equals it, in the
order of the character codes. -/
def charsLe : List Char → List Char → Bool
  | [], _ => true
  | _ :: _, [] => false
  | a :: as, b :: bs =>
    if a.toNat < b.toNat then true
    else if b.toNat < a.toNat then false
    else charsLe as bs

/-- Insert a name into a sorted list of names. -/
def insertName (n : String) : List String → List String
  | [] => [n]
  | m :: ms => if charsLe n.data m.data then n :: m :: ms else m :: insertName n ms

/-- Sort a list of names. -/
def sortNames : List String → List String
  | [] => []
  | n :: ns => insertName n (sortNames ns)

/-- The names of the entries of a directory, in the order in which
`readdirSync` lists them: sorted. -/
def FS.children (P : PathMod) (fs : FS) (d : String) : List String :=
  sortNames ((fs.filter (fun e => P.dirname e.1 == d && e.1 != d)).map
    (fun e => P.basename e.1 ""))

/-- The `Error` that an `fs` call on one path throws. -/
def fsError (code call p : String) : JsVal :=
  newError (code ++ ", " ++ call ++ " '" ++ p ++ "'")

/-- The `Error` that an `fs` call throws when it reports no path. -/
def fsErrorPlain (code call : String) : JsVal :=
  newError (code ++ ", " ++ call)

/-- The `Error` that an `fs` call on two paths throws. -/
def fsErrorPair (code call src dest : String) : JsVal :=
  newError (code ++ ", " ++ call ++ " '" ++ src ++ "' -> '" ++ dest ++ "'")

/-- The call `fs.existsSync(p)`: true for files and directories, never throws. -/
def existsSync (fs : FS) (p : String) : Bool := (fs.node p).isSome

/-- The call `fs.readFileSync(p)`. -/
def readFileSync (fs : FS) (p : String) : Except JsVal Bytes :=
  match fs.node p with
  | some (.file b) => .ok b
  | some .dir => .error (fsErrorPlain "EISDIR: illegal operation on a directory" "read")
  | none => .error (fsError "ENOENT: no such file or directory" "open" p)

/-- The call `fs.readdirSync(d)`. -/
def readdirSync (P : PathMod) (fs : FS) (d : String) : Except JsVal (List String) :=
  match fs.node d with
  | some .dir => .ok (fs.children P d)
  | some (.file _) => .error (fsError "ENOTDIR: not a directory" "scandir" d)
  | none => .error (fsError "ENOENT: no such file or directory" "scandir" d)

/-- The call `fs.mkdtempSync(stem)`: creates the directory `stem ++ suffix`,
where `suffix` stands for the six random characters; the error names the
template `stem ++ "XXXXXX"`.  The suffix is the one name that is tried: when
it is taken the call fails as `mkdtemp` does once its attempts are used up. -/
def mkdtempSync (P : PathMod) (fs : FS) (stem suffix : String) : Except JsVal (String × FS) :=
  let name := stem ++ suffix
  match fs.node (P.dirname name) with
  | some .dir =>
    if existsSync fs name then
      .error (fsError "EEXIST: file already exists" "mkdtemp" (stem ++ "XXXXXX"))
    else .ok (name, fs.put name .dir)
  | _ => .error (fsError "ENOENT: no such file or directory" "mkdtemp" (stem ++ "XXXXXX"))

/-- The call `fs.copyFileSync(src, dest)`. -/
def copyFileSync (P : PathMod) (fs : FS) (src dest : String) : Except JsVal FS :=
  match fs.node src with
  | some (.file b) =>
    match fs.node (P.dirname dest), fs.node dest with
    | some .dir, some .dir =>
      .error (fsErrorPair "EISDIR: illegal operation on a directory" "copyfile" src dest)
    | some .dir, _ => .ok (fs.put dest (.file b))
    | _, _ => .error (fsErrorPair "ENOENT: no such file or directory" "copyfile" src dest)
  | some .dir =>
    .error (fsErrorPair "EISDIR: illegal operation on a directory" "copyfile" src dest)
  | none => .error (fsErrorPair "ENOENT: no such file or directory" "copyfile" src dest)

/-- The call `fs.unlinkSync(p)`; also what `fs.unlink(p, cb)` does before it
calls `cb`. -/
def unlinkSync (fs : FS) (p : String) : Except JsVal FS :=
  match fs.node p with
  | some (.file _) => .ok (fs.remove p)
  | some .dir => .error (fsError "EPERM: operation not permitted" "unlink" p)
  | none => .error (fsError "ENOENT: no such file or directory" "unlink" p)

/-- The call `fs.rmdirSync(d)`: only an empty directory is removed. -/
def rmdirSync (P : PathMod) (fs : FS) (d : String) : Except JsVal FS :=
  match fs.node d with
  | some .dir =>
    if (fs.children P d).isEmpty then .ok (fs.remove d)
    else .error (fsError "ENOTEMPTY: directory not empty" "rmdir" d)
  | some (.file _) => .error (fsError "ENOTDIR: not a directory" "rmdir" d)
  | none => .error (fsError "ENOENT: no such file or directory" "rmdir" d)

/-- The statement `try { f(fs) } catch (e) {}` for a call that only changes
the file system. -/
def ignoreError (r : Except JsVal FS) (fs : FS) : FS :=
  match r with
  | .ok fs1 => fs1
  | .error _ => fs

/-! ## External collaborators -/

/-- The options object handed to `execFile` (line 87) and the `execOptions`
entry handed to the bridge (line 24): only `cwd` is ever set. -/
structure ExecOptions where
  cwd : Option String
  deriving DecidableEq, Repr

/-- What the external process does with one `execFile` call: it calls back
with `(err, stdout, stderr)`, where `err` is `null` or an `Error` with the
given message, or it never calls back.  Either way it may have changed the
file system. -/
inductive ExecResult where
  | callback (err : Option String) (stdout stderr : Option String) (fs : FS) : ExecResult
  | hang (fs : FS) : ExecResult

/-- The two entry points of `libreoffice-convert`. -/
inductive BridgeFn where
  | convertWithOptions : BridgeFn
  | convert : BridgeFn
  deriving DecidableEq, Repr

/-- The `options` argument of `convertWithOptions` built at lines 17-25. -/
structure BridgeOptions where
  fileName : String
  execOptions : Option ExecOptions
  deriving DecidableEq, Repr

/-- One call of the bridge: `convertWithOptions(document, format, null,
options, cb)` or `convert(document, format, null, cb)` (no options). -/
structure BridgeCall where
  fn : BridgeFn
  document : Bytes
  format : String
  options : Option BridgeOptions
  deriving DecidableEq, Repr

/-- What the bridge does with one call, in the order in which it happens: the
callback invocations `(err, done)` made before the call returns, the value the
call throws (if it throws), and the callback invocations made later. -/
structure BridgeRun where
  early : List (JsVal × Bytes)
  thrown : Option JsVal
  late : List (JsVal × Bytes)

/-- Everything the route takes from Node and from the npm packages. -/
structure Host where
  platform : String
  LIBRE_OFFICE_EXE : Option String
  tmpdir : String
  path : PathMod
  mkdtempSuffix : String
  execFile : String → List String → ExecOptions → FS → ExecResult
  hasConvertWithOptions : Bool
  bridge : BridgeCall → BridgeRun

/-- The observable calls the route makes, in order. -/
inductive Effect where
  | readFileSync (p : String) : Effect
  | mkdtempSync (stem : String) : Effect
  | copyFileSync (src dest : String) : Effect
  | execFile (cmd : String) (args : List String) (opts : ExecOptions) : Effect
  | readdirSync (d : String) : Effect
  | existsSync (p : String) : Effect
  | unlinkSync (p : String) : Effect
  | rmdirSync (d : String) : Effect
  | bridge (call : BridgeCall) : Effect
  | unlink (p : String) : Effect
  deriving DecidableEq, Repr

/-- Whether an effect is a call of `execFile`. -/
def Effect.isExec : Effect → Bool
  | .execFile _ _ _ => true
  | _ => false

/-- Whether an effect is a call of the bridge. -/
def Effect.isBridge : Effect → Bool
  | .bridge _ => true
  | _ => false

/-! ## `convertAsync` (lines 12-45) -/

/-- The state of a promise. -/
inductive PromiseState where
  | pending : PromiseState
  | fulfilled (v : Bytes) : PromiseState
  | rejected (e : JsVal) : PromiseState
  deriving DecidableEq, Repr

/-- The function `resolve` of a promise: no effect once it is settled. -/
def PromiseState.resolve (p : PromiseState) (v : Bytes) : PromiseState :=
  match p with
  | .pending => .fulfilled v
  | s => s

/-- The function `reject` of a promise: no effect once it is settled. -/
def PromiseState.reject (p : PromiseState) (e : JsVal) : PromiseState :=
  match p with
  | .pending => .rejected e
  | s => s

/-- Whether a promise is settled. -/
def PromiseState.settled : PromiseState → Bool
  | .pending => false
  | _ => true

/-- The callback of lines 30-33 and 37-40:
`(err, done) => { if (err) return reject(err); resolve(done); }`. -/
def onCallback (p : PromiseState) (c : JsVal × Bytes) : PromiseState :=
  if c.1.truthy then p.reject c.1 else p.resolve c.2

/-- The handler `catch (err) { reject(err); }` of lines 41-43. -/
def onThrow (p : PromiseState) (thrown : Option JsVal) : PromiseState :=
  match thrown with
  | some e => p.reject e
  | none => p

/-- The promise after the bridge has done all it does. -/
def settle (run : BridgeRun) : PromiseState :=
  (onThrow (run.early.foldl onCallback .pending) run.thrown |> run.late.foldl onCallback)

/-- The bridge call that `convertAsync` makes. -/
def bridgeCallOf (h : Host) (document : Bytes) (format fileName : String) : BridgeCall :=
  if h.hasConvertWithOptions then
    let sofficePath := optOr h.LIBRE_OFFICE_EXE ""
    let execOptions : Option ExecOptions :=
      if sofficePath != "" then some { cwd := some (h.path.dirname sofficePath) } else none
    { fn := .convertWithOptions, document := document, format := format,
      options := some { fileName := strOr fileName "source", execOptions := execOptions } }
  else
    { fn := .convert, document := document, format := format, options := none }

/-- The function `convertAsync(document, format, fileName)`: the promise it
returns, once the bridge has done all it does, and the calls it made. -/
def convertAsync (h : Host) (document : Bytes) (format fileName : String) :
    PromiseState × List Effect :=
  let call := bridgeCallOf h document format fileName
  (settle (h.bridge call), [Effect.bridge call])

/-! ## The route `POST /convert` (lines 64-127) -/

/-- The file object that multer attaches to the request. -/
structure UploadedFile where
  path : String
  originalname : String
  deriving DecidableEq, Repr

/-- The request, as far as the route reads it. -/
structure Request where
  file : Option UploadedFile
  deriving DecidableEq, Repr

/-- The body of a response: `res.send(buffer)` or `res.json({ error: v })`. -/
inductive Body where
  | send (b : Bytes) : Body
  | json (error : JsVal) : Body
  deriving DecidableEq, Repr

/-- The response: the status (200 unless `res.status` was called), the headers
set by `res.set`, and the body. -/
structure Response where
  status : Nat
  headers : List (String × String)
  body : Body
  deriving DecidableEq, Repr

/-- How a block of statements ends: normally with a value, with a thrown
value, or never (an `await` on a promise that stays pending). -/
inductive Outcome (α : Type) where
  | ok (a : α) : Outcome α
  | throw (e : JsVal) : Outcome α
  | hang : Outcome α
  deriving DecidableEq, Repr

/-- A block that has run: how it ended, the file system it left, the calls it
made. -/
structure Step where
  outcome : Outcome Bytes
  fs : FS
  trace : List Effect

/-- The variable `original` of line 75. -/
def originalOf (P : PathMod) (file : UploadedFile) : String :=
  strOr file.originalname ("source" ++ P.extname (strOr file.originalname ""))

/-- The variable `sofficeCmd` of line 81. -/
def sofficeCmdOf (h : Host) : String := optOr h.LIBRE_OFFICE_EXE "soffice"

/-- The variable `execOpts` of lines 87-90. -/
def execOptsOf (h : Host) : ExecOptions :=
  if optTruthy h.LIBRE_OFFICE_EXE then
    { cwd := some (h.path.dirname (optOr h.LIBRE_OFFICE_EXE "")) }
  else { cwd := none }

/-- The variable `args` of line 86. -/
def argsOf (outDir inPath : String) : List String :=
  ["--headless", "--convert-to", "pdf", "--outdir", outDir, inPath]

/-- The variable `outPath` of lines 104-105. -/
def outPathOf (P : PathMod) (outDir original : String) : String :=
  let baseName := P.basename original (strOr (P.extname original) "")
  P.join outDir (baseName ++ ".pdf")

/-- Lines 102-110: what follows the `await` once the process has succeeded. -/
def afterExec (P : PathMod) (fs : FS) (outDir original : String) : Step :=
  let outPath := outPathOf P outDir original
  match readdirSync P fs outDir with
  | .error e => { outcome := .throw e, fs := fs, trace := [.readdirSync outDir] }
  | .ok files =>
    if !existsSync fs outPath then
      { outcome := .throw (newError ("Converted file not found; outdir files: " ++ ", ".intercalate files)),
        fs := fs, trace := [.readdirSync outDir, .existsSync outPath] }
    else
      match readFileSync fs outPath with
      | .error e =>
        { outcome := .throw e, fs := fs,
          trace := [.readdirSync outDir, .existsSync outPath, .readFileSync outPath] }
      | .ok pdfBuf =>
        let fs1 := ignoreError (unlinkSync fs outPath) fs
        let fs2 := ignoreError (rmdirSync P fs1 outDir) fs1
        { outcome := .ok pdfBuf, fs := fs2,
          trace := [.readdirSync outDir, .existsSync outPath, .readFileSync outPath,
                    .unlinkSync outPath, .rmdirSync outDir] }

/-- Lines 81-110: the branch `process.platform === 'win32'`. -/
def winBranch (h : Host) (fs : FS) (tempPath original : String) : Step :=
  let sofficeCmd := sofficeCmdOf h
  let stem := h.path.join h.tmpdir "lo-out-"
  match mkdtempSync h.path fs stem h.mkdtempSuffix with
  | .error e => { outcome := .throw e, fs := fs, trace := [.mkdtempSync stem] }
  | .ok (outDir, fs1) =>
    let inPath := h.path.join outDir original
    match copyFileSync h.path fs1 tempPath inPath with
    | .error e =>
      { outcome := .throw e, fs := fs1, trace := [.mkdtempSync stem, .copyFileSync tempPath inPath] }
    | .ok fs2 =>
      let args := argsOf outDir inPath
      let execOpts := execOptsOf h
      let pre : List Effect :=
        [.mkdtempSync stem, .copyFileSync tempPath inPath, .execFile sofficeCmd args execOpts]
      match h.execFile sofficeCmd args execOpts fs2 with
      | .hang fs3 => { outcome := .hang, fs := fs3, trace := pre }
      | .callback (some message) stdout stderr fs3 =>
        { outcome := .throw (newError (message ++ "\n" ++ optOr stderr "" ++ "\n" ++ optOr stdout "")),
          fs := fs3, trace := pre }
      | .callback none _ _ fs3 =>
        let rest := afterExec h.path fs3 outDir original
        { outcome := rest.outcome, fs := rest.fs, trace := pre ++ rest.trace }

/-- Line 112: the branch of every other platform, `await convertAsync(...)`. -/
def elseBranch (h : Host) (fs : FS) (input : Bytes) (original : String) : Step :=
  let r := convertAsync h input "pdf" original
  match r.1 with
  | .pending => { outcome := .hang, fs := fs, trace := r.2 }
  | .fulfilled pdfBuf => { outcome := .ok pdfBuf, fs := fs, trace := r.2 }
  | .rejected e => { outcome := .throw e, fs := fs, trace := r.2 }

/-- Lines 71-113: the `try` block up to the value of `pdfBuf`. -/
def tryBlock (h : Host) (fs : FS) (file : UploadedFile) : Step :=
  let tempPath := file.path
  match readFileSync fs tempPath with
  | .error e => { outcome := .throw e, fs := fs, trace := [.readFileSync tempPath] }
  | .ok input =>
    let original := originalOf h.path file
    let rest :=
      if h.platform = "win32" then winBranch h fs tempPath original
      else elseBranch h fs input original
    { outcome := rest.outcome, fs := rest.fs, trace := .readFileSync tempPath :: rest.trace }

/-- The headers of lines 115-118. -/
def pdfHeaders : List (String × String) :=
  [("Content-Type", "application/pdf"),
   ("Content-Disposition", "attachment; filename=\"output.pdf\"")]

/-- The response that the `try` / `catch` pair determines (lines 115-122);
none when the `await` never completes. -/
def respond : Outcome Bytes → Option Response
  | .ok pdfBuf => some { status := 200, headers := pdfHeaders, body := .send pdfBuf }
  | .throw err => some { status := 500, headers := [], body := .json (errorField err) }
  | .hang => none

/-- What one request leaves behind: the response (none if the route never
responds), the file system, the calls made. -/
structure Result where
  response : Option Response
  fs : FS
  trace : List Effect

/-- The handler of `POST /convert`. -/
def convertRoute (h : Host) (fs : FS) (req : Request) : Result :=
  match req.file with
  | none =>
    { response := some { status := 400, headers := [],
                         body := .json (.str "No file uploaded (field name should be `file`)") },
      fs := fs, trace := [] }
  | some file =>
    let tempPath := file.path
    let body := tryBlock h fs file
    match body.outcome with
    | .hang => { response := none, fs := body.fs, trace := body.trace }
    | out =>
      { response := respond out,
        fs := ignoreError (unlinkSync body.fs tempPath) body.fs,
        trace := body.trace ++ [.unlink tempPath] }

/-! ## Concrete hosts for the examples -/

/-- Split a list of characters at the last occurrence of a separator. -/
def splitLast (sep : Char) : List Char → Option (List Char × List Char)
  | [] => none
  | c :: cs =>
    match splitLast sep cs with
    | some (a, b) => some (c :: a, b)
    | none => if c = sep then some ([], cs) else none

/-- Drop an ending from a list of characters, when it ends with it. -/
def dropEnd (ext : List Char) (cs : List Char) : List Char :=
  if ext.isSuffixOf cs then cs.take (cs.length - ext.length) else cs

/-- The last component of a path with the given separator. -/
def lastPart (sep : Char) (p : String) : List Char :=
  match splitLast sep p.data with
  | some (_, b) => b
  | none => p.data

/-- A `path` module for the examples: it agrees with Node's on the paths that
occur in them (a rooted directory, plain file names, no `.` or `..`
components, no repeated separators). -/
def simplePath (sep : Char) : PathMod :=
  { join := fun d n => d ++ String.singleton sep ++ n,
    dirname := fun p =>
      match splitLast sep p.data with
      | some (a, _) => ⟨a⟩
      | none => ".",
    basename := fun p ext =>
      ⟨if ext.data.length < (lastPart sep p).length then dropEnd ext.data (lastPart sep p)
        else lastPart sep p⟩,
    extname := fun p =>
      match splitLast '.' (lastPart sep p) with
      | some (a, e) => if a.isEmpty then "" else ⟨'.' :: e⟩
      | none => "" }

/-- The module `path.win32` of the examples. -/
def winPath : PathMod := simplePath '\\'

/-- The module `path.posix` of the examples. -/
def posixPath : PathMod := simplePath '/'

/-- The bytes of `%PDF-1.4`. -/
def pdfBytes : Bytes := [37, 80, 68, 70, 45, 49, 46, 52]

/-- An external process that converts: it writes `<stem>.pdf` into the
directory given after `--outdir` and exits with code 0. -/
def sofficeOk (_cmd : String) (args : List String) (_opts : ExecOptions) (fs : FS) : ExecResult :=
  match args with
  | [_, _, _, _, outDir, inPath] =>
    .callback none (some "convert") none
      (fs.put (winPath.join outDir (winPath.basename inPath (winPath.extname inPath) ++ ".pdf"))
        (.file pdfBytes))
  | _ => .callback (some "Command failed: soffice") none (some "bad arguments") fs

/-- An external process that exits with a non-zero code. -/
def sofficeFails (_cmd : String) (_args : List String) (_opts : ExecOptions) (fs : FS) : ExecResult :=
  .callback (some "Command failed: soffice") (some "out") (some "Error: source file could not be loaded") fs

/-- An external process that exits with code 0 and writes nothing. -/
def sofficeSilent (_cmd : String) (_args : List String) (_opts : ExecOptions) (fs : FS) : ExecResult :=
  .callback none none none fs

/-- A bridge that calls back once, later, with the converted bytes. -/
def bridgeOk (_call : BridgeCall) : BridgeRun :=
  { early := [], thrown := none, late := [(.null, pdfBytes)] }

/-- A Windows host on which the conversion succeeds. -/
def winHost : Host :=
  { platform := "win32", LIBRE_OFFICE_EXE := none, tmpdir := "C:\\tmp", path := winPath,
    mkdtempSuffix := "a1b2c3", execFile := sofficeOk, hasConvertWithOptions := true,
    bridge := bridgeOk }

/-- A Windows host with `LIBRE_OFFICE_EXE` set. -/
def winHostExe : Host :=
  { winHost with LIBRE_OFFICE_EXE := some "C:\\LibreOffice\\program\\soffice.exe" }

/-- A Windows host on which the external process fails. -/
def winHostFails : Host := { winHost with execFile := sofficeFails }

/-- A Windows host on which the external process writes no output. -/
def winHostSilent : Host := { winHost with execFile := sofficeSilent }

/-- A Linux host whose bridge has `convertWithOptions` and converts. -/
def linuxHost : Host :=
  { platform := "linux", LIBRE_OFFICE_EXE := none, tmpdir := "/tmp", path := posixPath,
    mkdtempSuffix := "a1b2c3", execFile := sofficeFails, hasConvertWithOptions := true,
    bridge := bridgeOk }

/-- A Linux host with `LIBRE_OFFICE_EXE` set. -/
def linuxHostExe : Host :=
  { linuxHost with LIBRE_OFFICE_EXE := some "/opt/libreoffice/program/soffice" }

/-- A Linux host whose bridge throws the empty string. -/
def linuxHostThrows : Host :=
  { linuxHost with bridge := fun _ => { early := [], thrown := some (.str ""), late := [] } }

/-- A Linux host whose bridge throws an `Error` with empty name and message. -/
def linuxHostThrowsBlank : Host :=
  { linuxHost with
    bridge := fun _ => { early := [], thrown := some (.error "" ""), late := [] } }

/-- A Linux host whose bridge reports an `Error`. -/
def linuxHostRejects : Host :=
  { linuxHost with
    bridge := fun _ =>
      { early := [], thrown := none, late := [(newError "soffice: command not found", [])] } }

/-- A Linux host with `LIBRE_OFFICE_EXE` set and a bridge that has no
`convertWithOptions`. -/
def linuxHostLegacy : Host :=
  { linuxHostExe with hasConvertWithOptions := false }

/-- A Windows file system: the temporary directory and one upload saved by
multer. -/
def winFs : FS := [("C:\\tmp", .dir), ("uploads\\f00", .file [104, 105])]

/-- A Windows file system with the temporary directory and no upload. -/
def winFsBare : FS := [("C:\\tmp", .dir)]

/-- A Windows file system with the upload and no temporary directory. -/
def winFsNoTmp : FS := [("uploads\\f00", .file [104, 105])]

/-- The upload `sample.txt` on Windows. -/
def winFile : UploadedFile := { path := "uploads\\f00", originalname := "sample.txt" }

/-- A Linux file system: the temporary directory and one upload. -/
def linuxFs : FS := [("/tmp", .dir), ("uploads/f00", .file [104, 105])]

/-- The upload `sample.txt` on Linux. -/
def linuxFile : UploadedFile := { path := "uploads/f00", originalname := "sample.txt" }

/-! ## Auxiliary facts -/

theorem strOr_empty (a : String) : strOr a "" = a := by
  unfold strOr
  by_cases h : a = "" <;> simp [h]

theorem strOr_of_ne (a b : String) (h : a ≠ "") : strOr a b = a := by
  simp [strOr, h]

theorem optOr_empty (a : Option String) : optOr a "" = a.getD "" := by
  cases a <;> simp [optOr, strOr_empty]

theorem eq_empty_of_length (s : String) (h : s.length = 0) : s = "" := by
  cases s with
  | mk d =>
    have hd : d = [] := List.length_eq_zero.mp h
    subst hd
    rfl

theorem append_ne_empty_right (a b : String) (h : b ≠ "") : a ++ b ≠ "" := by
  intro hab
  have hlen := congrArg String.length hab
  simp only [String.length_append] at hlen
  have hb : b.length = 0 := by simpa using (Nat.eq_zero_of_add_eq_zero hlen).2
  exact h (eq_empty_of_length _ hb)

theorem append_ne_empty_left (a b : String) (h : a ≠ "") : a ++ b ≠ "" := by
  intro hab
  have hlen := congrArg String.length hab
  simp only [String.length_append] at hlen
  have ha : a.length = 0 := by simpa using (Nat.eq_zero_of_add_eq_zero hlen).1
  exact h (eq_empty_of_length _ ha)

theorem fsError_shape (code call p : String) :
    ∃ m, m ≠ "" ∧ fsError code call p = newError m :=
  ⟨_, append_ne_empty_right _ _ (by decide), rfl⟩

theorem fsErrorPlain_shape (code call : String) (hcall : call ≠ "") :
    ∃ m, m ≠ "" ∧ fsErrorPlain code call = newError m :=
  ⟨_, append_ne_empty_right _ _ hcall, rfl⟩

theorem fsErrorPair_shape (code call src dest : String) :
    ∃ m, m ≠ "" ∧ fsErrorPair code call src dest = newError m :=
  ⟨_, append_ne_empty_right _ _ (by decide), rfl⟩

theorem errorField_error {n : String} (m : String) (h : m ≠ "") :
    errorField (.error n m) = .str m := by
  simp [errorField, JsVal.and, JsVal.or, JsVal.truthy, JsVal.message, h]

theorem originalOf_ne_empty (P : PathMod) (file : UploadedFile) : originalOf P file ≠ "" := by
  unfold originalOf strOr
  by_cases h : file.originalname = ""
  · simp only [h, bne_self_eq_false, Bool.false_eq_true, ↓reduceIte]
    exact append_ne_empty_left _ _ (by decide)
  · simp [h]

theorem originalOf_blank (P : PathMod) (file : UploadedFile) (h : file.originalname = "") :
    originalOf P file = "source" ++ P.extname "" := by
  simp [originalOf, strOr, h]

theorem originalOf_eq (P : PathMod) (file : UploadedFile) (h : file.originalname ≠ "") :
    originalOf P file = file.originalname := by
  simp [originalOf, strOr, h]

theorem reject_of_settled (p : PromiseState) (e : JsVal) (h : p.settled = true) :
    p.reject e = p := by
  cases p <;> simp_all [PromiseState.settled, PromiseState.reject]

theorem resolve_of_settled (p : PromiseState) (v : Bytes) (h : p.settled = true) :
    p.resolve v = p := by
  cases p <;> simp_all [PromiseState.settled, PromiseState.resolve]

theorem onCallback_of_settled (p : PromiseState) (c : JsVal × Bytes) (h : p.settled = true) :
    onCallback p c = p := by
  unfold onCallback
  split
  · exact reject_of_settled p c.1 h
  · exact resolve_of_settled p c.2 h

theorem onThrow_of_settled (p : PromiseState) (t : Option JsVal) (h : p.settled = true) :
    onThrow p t = p := by
  cases t with
  | none => rfl
  | some e => exact reject_of_settled p e h

theorem foldl_onCallback_of_settled (cs : List (JsVal × Bytes)) (p : PromiseState)
    (h : p.settled = true) : cs.foldl onCallback p = p := by
  induction cs with
  | nil => rfl
  | cons c cs ih => simp only [List.foldl_cons, onCallback_of_settled p c h, ih]

theorem onCallback_pending_settled (c : JsVal × Bytes) :
    (onCallback .pending c).settled = true := by
  unfold onCallback
  split <;> rfl

theorem settle_of_early_prefix (run : BridgeRun) (k : Nat)
    (h : ((run.early.take k).foldl onCallback .pending).settled = true) :
    settle run = (run.early.take k).foldl onCallback .pending := by
  have hsplit : run.early.foldl onCallback .pending
      = (run.early.drop k).foldl onCallback ((run.early.take k).foldl onCallback .pending) := by
    rw [← List.foldl_append, List.take_append_drop]
  unfold settle
  rw [hsplit, foldl_onCallback_of_settled _ _ h, onThrow_of_settled _ _ h,
    foldl_onCallback_of_settled _ _ h]

/-! ## How the route is put together -/

theorem route_response (h : Host) (fs : FS) (file : UploadedFile) :
    (convertRoute h fs { file := some file }).response = respond (tryBlock h fs file).outcome := by
  unfold convertRoute
  cases hout : (tryBlock h fs file).outcome <;> simp [hout, respond]

theorem route_trace (h : Host) (fs : FS) (file : UploadedFile) :
    (convertRoute h fs { file := some file }).trace
      = (tryBlock h fs file).trace
          ++ (if (tryBlock h fs file).outcome = .hang then [] else [Effect.unlink file.path]) := by
  unfold convertRoute
  cases hout : (tryBlock h fs file).outcome <;> simp [hout]

theorem route_fs (h : Host) (fs : FS) (file : UploadedFile)
    (hout : (tryBlock h fs file).outcome ≠ .hang) :
    (convertRoute h fs { file := some file }).fs
      = ignoreError (unlinkSync (tryBlock h fs file).fs file.path) (tryBlock h fs file).fs := by
  unfold convertRoute
  cases hout2 : (tryBlock h fs file).outcome <;> simp_all

theorem tryBlock_win (h : Host) (fs : FS) (file : UploadedFile) (input : Bytes)
    (hwin : h.platform = "win32") (hread : readFileSync fs file.path = .ok input) :
    (tryBlock h fs file).outcome = (winBranch h fs file.path (originalOf h.path file)).outcome
      ∧ (tryBlock h fs file).fs = (winBranch h fs file.path (originalOf h.path file)).fs
      ∧ (tryBlock h fs file).trace
          = .readFileSync file.path :: (winBranch h fs file.path (originalOf h.path file)).trace := by
  unfold tryBlock
  simp [hread, hwin]

theorem tryBlock_else (h : Host) (fs : FS) (file : UploadedFile) (input : Bytes)
    (hwin : h.platform ≠ "win32") (hread : readFileSync fs file.path = .ok input) :
    (tryBlock h fs file).outcome = (elseBranch h fs input (originalOf h.path file)).outcome
      ∧ (tryBlock h fs file).fs = (elseBranch h fs input (originalOf h.path file)).fs
      ∧ (tryBlock h fs file).trace
          = .readFileSync file.path :: (elseBranch h fs input (originalOf h.path file)).trace := by
  unfold tryBlock
  simp [hread, hwin]

theorem tryBlock_unread (h : Host) (fs : FS) (file : UploadedFile) (e : JsVal)
    (hread : readFileSync fs file.path = .error e) :
    (tryBlock h fs file).outcome = .throw e
      ∧ (tryBlock h fs file).fs = fs
      ∧ (tryBlock h fs file).trace = [.readFileSync file.path] := by
  unfold tryBlock
  simp [hread]

theorem winBranch_exec_ok (h : Host) (fs fs1 fs2 fs3 : FS) (tempPath original outDir : String)
    (so se : Option String)
    (hmk : mkdtempSync h.path fs (h.path.join h.tmpdir "lo-out-") h.mkdtempSuffix = .ok (outDir, fs1))
    (hcp : copyFileSync h.path fs1 tempPath (h.path.join outDir original) = .ok fs2)
    (hex : h.execFile (sofficeCmdOf h) (argsOf outDir (h.path.join outDir original)) (execOptsOf h) fs2
      = .callback none so se fs3) :
    (winBranch h fs tempPath original).outcome = (afterExec h.path fs3 outDir original).outcome
      ∧ (winBranch h fs tempPath original).fs = (afterExec h.path fs3 outDir original).fs
      ∧ (winBranch h fs tempPath original).trace
          = [.mkdtempSync (h.path.join h.tmpdir "lo-out-"),
             .copyFileSync tempPath (h.path.join outDir original),
             .execFile (sofficeCmdOf h) (argsOf outDir (h.path.join outDir original)) (execOptsOf h)]
            ++ (afterExec h.path fs3 outDir original).trace := by
  unfold winBranch
  simp [hmk, hcp, hex]

theorem winBranch_exec_error (h : Host) (fs fs1 fs2 fs3 : FS) (tempPath original outDir : String)
    (message : String) (so se : Option String)
    (hmk : mkdtempSync h.path fs (h.path.join h.tmpdir "lo-out-") h.mkdtempSuffix = .ok (outDir, fs1))
    (hcp : copyFileSync h.path fs1 tempPath (h.path.join outDir original) = .ok fs2)
    (hex : h.execFile (sofficeCmdOf h) (argsOf outDir (h.path.join outDir original)) (execOptsOf h) fs2
      = .callback (some message) so se fs3) :
    (winBranch h fs tempPath original).outcome
        = .throw (newError (message ++ "\n" ++ optOr se "" ++ "\n" ++ optOr so ""))
      ∧ (winBranch h fs tempPath original).fs = fs3
      ∧ (winBranch h fs tempPath original).trace
          = [.mkdtempSync (h.path.join h.tmpdir "lo-out-"),
             .copyFileSync tempPath (h.path.join outDir original),
             .execFile (sofficeCmdOf h) (argsOf outDir (h.path.join outDir original)) (execOptsOf h)] := by
  unfold winBranch
  simp [hmk, hcp, hex]

theorem afterExec_found (P : PathMod) (fs : FS) (outDir original : String) (b : Bytes)
    (hdir : fs.node outDir = some .dir)
    (hout : fs.node (outPathOf P outDir original) = some (.file b)) :
    (afterExec P fs outDir original).outcome = .ok b
      ∧ (afterExec P fs outDir original).trace
          = [.readdirSync outDir, .existsSync (outPathOf P outDir original),
             .readFileSync (outPathOf P outDir original),
             .unlinkSync (outPathOf P outDir original), .rmdirSync outDir] := by
  unfold afterExec
  simp [readdirSync, existsSync, readFileSync, hdir, hout]

theorem afterExec_missing (P : PathMod) (fs : FS) (outDir original : String)
    (hdir : fs.node outDir = some .dir)
    (hout : fs.node (outPathOf P outDir original) = none) :
    (afterExec P fs outDir original).outcome
        = .throw (newError ("Converted file not found; outdir files: "
            ++ ", ".intercalate (fs.children P outDir)))
      ∧ (afterExec P fs outDir original).fs = fs
      ∧ (afterExec P fs outDir original).trace
          = [.readdirSync outDir, .existsSync (outPathOf P outDir original)] := by
  unfold afterExec
  simp [readdirSync, existsSync, hdir, hout]

theorem outPathOf_eq (P : PathMod) (outDir original : String) :
    outPathOf P outDir original
      = P.join outDir (P.basename original (P.extname original) ++ ".pdf") := by
  simp [outPathOf, strOr_empty]

theorem readdirSync_ok (P : PathMod) (fs : FS) (d : String) (files : List String)
    (h : readdirSync P fs d = .ok files) :
    fs.node d = some .dir ∧ files = fs.children P d := by
  unfold readdirSync at h
  split at h <;> simp_all

theorem afterExec_exists_effect (P : PathMod) (fs : FS) (outDir original : String)
    (hdir : fs.node outDir = some .dir) (p : String) :
    Effect.existsSync p ∈ (afterExec P fs outDir original).trace
      ↔ p = outPathOf P outDir original := by
  unfold afterExec
  simp only [readdirSync, hdir]
  split
  · simp
  · split <;> simp

/-! ## Which calls the route makes -/

theorem afterExec_calls (P : PathMod) (fs : FS) (outDir original : String) :
    (afterExec P fs outDir original).trace.filter Effect.isExec = []
      ∧ (afterExec P fs outDir original).trace.filter Effect.isBridge = []
      ∧ ∀ p, Effect.unlink p ∉ (afterExec P fs outDir original).trace := by
  cases hls : readdirSync P fs outDir with
  | error e => simp [afterExec, hls, Effect.isExec, Effect.isBridge]
  | ok files =>
    cases hex : existsSync fs (outPathOf P outDir original) with
    | false => simp [afterExec, hls, hex, Effect.isExec, Effect.isBridge]
    | true =>
      cases hrd : readFileSync fs (outPathOf P outDir original) with
      | error e => simp [afterExec, hls, hex, hrd, Effect.isExec, Effect.isBridge]
      | ok b => simp [afterExec, hls, hex, hrd, Effect.isExec, Effect.isBridge]

theorem winBranch_calls (h : Host) (fs : FS) (tempPath original : String) :
    (winBranch h fs tempPath original).trace.filter Effect.isBridge = []
      ∧ (∀ p, Effect.unlink p ∉ (winBranch h fs tempPath original).trace)
      ∧ ((winBranch h fs tempPath original).trace.filter Effect.isExec = []
          ∨ ∃ outDir fs1 fs2,
              mkdtempSync h.path fs (h.path.join h.tmpdir "lo-out-") h.mkdtempSuffix
                = .ok (outDir, fs1)
              ∧ copyFileSync h.path fs1 tempPath (h.path.join outDir original) = .ok fs2
              ∧ (winBranch h fs tempPath original).trace.filter Effect.isExec
                = [.execFile (sofficeCmdOf h) (argsOf outDir (h.path.join outDir original))
                    (execOptsOf h)]) := by
  cases hmk : mkdtempSync h.path fs (h.path.join h.tmpdir "lo-out-") h.mkdtempSuffix with
  | error e => simp [winBranch, hmk, Effect.isExec, Effect.isBridge]
  | ok r =>
    obtain ⟨outDir, fs1⟩ := r
    cases hcp : copyFileSync h.path fs1 tempPath (h.path.join outDir original) with
    | error e => simp [winBranch, hmk, hcp, Effect.isExec, Effect.isBridge]
    | ok fs2 =>
      cases hex : h.execFile (sofficeCmdOf h) (argsOf outDir (h.path.join outDir original))
          (execOptsOf h) fs2 with
      | hang fs3 =>
        refine ⟨?_, ?_, Or.inr ⟨outDir, fs1, fs2, rfl, hcp, ?_⟩⟩ <;>
          simp [winBranch, hmk, hcp, hex, Effect.isExec, Effect.isBridge]
      | callback err so se fs3 =>
        cases err with
        | some m =>
          refine ⟨?_, ?_, Or.inr ⟨outDir, fs1, fs2, rfl, hcp, ?_⟩⟩ <;>
            simp [winBranch, hmk, hcp, hex, Effect.isExec, Effect.isBridge]
        | none =>
          obtain ⟨h1, h2, h3⟩ := afterExec_calls h.path fs3 outDir original
          obtain ⟨g1, g2, g3⟩ := winBranch_exec_ok h fs fs1 fs2 fs3 tempPath original outDir
            so se hmk hcp hex
          rw [g3]
          refine ⟨?_, ?_, Or.inr ⟨outDir, fs1, fs2, rfl, hcp, ?_⟩⟩
          · rw [List.filter_append, h2]
            simp [Effect.isBridge]
          · intro p hp
            rw [List.mem_append] at hp
            rcases hp with hp | hp
            · simp at hp
            · exact h3 p hp
          · rw [List.filter_append, h1]
            simp [Effect.isExec]

theorem winBranch_exec_once (h : Host) (fs fs1 fs2 : FS) (tempPath original outDir : String)
    (hmk : mkdtempSync h.path fs (h.path.join h.tmpdir "lo-out-") h.mkdtempSuffix = .ok (outDir, fs1))
    (hcp : copyFileSync h.path fs1 tempPath (h.path.join outDir original) = .ok fs2) :
    (winBranch h fs tempPath original).trace.filter Effect.isExec
      = [.execFile (sofficeCmdOf h) (argsOf outDir (h.path.join outDir original)) (execOptsOf h)] := by
  rcases (winBranch_calls h fs tempPath original).2.2 with hnone | ⟨d, g1, g2, hmk2, _, hone⟩
  · exfalso
    revert hnone
    cases hex : h.execFile (sofficeCmdOf h) (argsOf outDir (h.path.join outDir original))
        (execOptsOf h) fs2 with
    | hang fs3 => simp [winBranch, hmk, hcp, hex, Effect.isExec]
    | callback err so se fs3 =>
      cases err <;> simp [winBranch, hmk, hcp, hex, Effect.isExec, List.filter_cons]
  · rw [hmk] at hmk2
    simp only [Except.ok.injEq, Prod.mk.injEq] at hmk2
    rw [hone, hmk2.1]

theorem elseBranch_trace (h : Host) (fs : FS) (input : Bytes) (original : String) :
    (elseBranch h fs input original).trace = [.bridge (bridgeCallOf h input "pdf" original)] := by
  unfold elseBranch
  simp only []
  split <;> rfl

theorem mkdtempSync_fresh (P : PathMod) (fs fs1 : FS) (stem suffix outDir : String)
    (h : mkdtempSync P fs stem suffix = .ok (outDir, fs1)) :
    outDir = stem ++ suffix ∧ existsSync fs outDir = false ∧ fs1.node outDir = some .dir := by
  unfold mkdtempSync at h
  simp only [] at h
  split at h
  · split at h
    · simp at h
    · rename_i hex
      simp only [Except.ok.injEq, Prod.mk.injEq] at h
      obtain ⟨h1, h2⟩ := h
      subst h1 h2
      refine ⟨rfl, by simpa using hex, ?_⟩
      simp [FS.put, FS.node, List.lookup]
  · simp at h

theorem tryBlock_no_unlink (h : Host) (fs : FS) (file : UploadedFile) (p : String) :
    Effect.unlink p ∉ (tryBlock h fs file).trace := by
  cases hread : readFileSync fs file.path with
  | error e => simp [(tryBlock_unread h fs file e hread).2.2]
  | ok input =>
    by_cases hwin : h.platform = "win32"
    · rw [(tryBlock_win h fs file input hwin hread).2.2]
      intro hp
      rw [List.mem_cons] at hp
      rcases hp with hp | hp
      · simp at hp
      · exact (winBranch_calls h fs file.path (originalOf h.path file)).2.1 p hp
    · rw [(tryBlock_else h fs file input hwin hread).2.2, elseBranch_trace]
      simp

theorem route_filter (h : Host) (fs : FS) (file : UploadedFile) (q : Effect → Bool)
    (hq : ∀ p, q (Effect.unlink p) = false) :
    (convertRoute h fs { file := some file }).trace.filter q
      = (tryBlock h fs file).trace.filter q := by
  rw [route_trace, List.filter_append]
  split <;> simp [hq]

theorem route_exec_win (h : Host) (fs : FS) (file : UploadedFile) (hwin : h.platform = "win32") :
    (convertRoute h fs { file := some file }).trace.filter Effect.isBridge = []
      ∧ ((convertRoute h fs { file := some file }).trace.filter Effect.isExec = []
          ∨ ∃ outDir fs1 fs2,
              mkdtempSync h.path fs (h.path.join h.tmpdir "lo-out-") h.mkdtempSuffix
                = .ok (outDir, fs1)
              ∧ copyFileSync h.path fs1 file.path (h.path.join outDir (originalOf h.path file))
                = .ok fs2
              ∧ (convertRoute h fs { file := some file }).trace.filter Effect.isExec
                = [.execFile (sofficeCmdOf h)
                    (argsOf outDir (h.path.join outDir (originalOf h.path file))) (execOptsOf h)]) := by
  rw [route_filter h fs file Effect.isBridge (fun _ => rfl),
    route_filter h fs file Effect.isExec (fun _ => rfl)]
  cases hread : readFileSync fs file.path with
  | error e => simp [(tryBlock_unread h fs file e hread).2.2, Effect.isBridge, Effect.isExec]
  | ok input =>
    rw [(tryBlock_win h fs file input hwin hread).2.2]
    obtain ⟨h1, _, h3⟩ := winBranch_calls h fs file.path (originalOf h.path file)
    simp only [List.filter_cons, Effect.isBridge, Effect.isExec, Bool.false_eq_true, ↓reduceIte]
    exact ⟨h1, h3⟩

theorem route_bridge_else (h : Host) (fs : FS) (file : UploadedFile)
    (hwin : h.platform ≠ "win32") :
    (convertRoute h fs { file := some file }).trace.filter Effect.isExec = []
      ∧ ((convertRoute h fs { file := some file }).trace.filter Effect.isBridge = []
            ∧ (∃ e, readFileSync fs file.path = .error e)
          ∨ ∃ input, readFileSync fs file.path = .ok input
              ∧ (convertRoute h fs { file := some file }).trace.filter Effect.isBridge
                = [.bridge (bridgeCallOf h input "pdf" (originalOf h.path file))]) := by
  rw [route_filter h fs file Effect.isBridge (fun _ => rfl),
    route_filter h fs file Effect.isExec (fun _ => rfl)]
  cases hread : readFileSync fs file.path with
  | error e => simp [(tryBlock_unread h fs file e hread).2.2, Effect.isBridge, Effect.isExec]
  | ok input =>
    rw [(tryBlock_else h fs file input hwin hread).2.2, elseBranch_trace]
    simp [Effect.isBridge, Effect.isExec]

theorem mem_of_filter_eq_singleton (l : List Effect) (q : Effect → Bool) (a e : Effect)
    (hl : l.filter q = [a]) (he : e ∈ l) (hq : q e = true) : e = a := by
  have hmem : e ∈ l.filter q := List.mem_filter.mpr ⟨he, hq⟩
  rw [hl] at hmem
  simpa using hmem

theorem not_mem_of_filter_eq_nil (l : List Effect) (q : Effect → Bool) (e : Effect)
    (hl : l.filter q = []) (hq : q e = true) : e ∉ l := by
  intro he
  have hmem : e ∈ l.filter q := List.mem_filter.mpr ⟨he, hq⟩
  rw [hl] at hmem
  simp at hmem

/-! ## What the route throws on win32 -/

theorem readFileSync_error (fs : FS) (p : String) (e : JsVal)
    (h : readFileSync fs p = .error e) : ∃ m, m ≠ "" ∧ e = newError m := by
  unfold readFileSync at h
  split at h
  · simp at h
  · simp only [Except.error.injEq] at h
    subst h
    exact fsErrorPlain_shape _ _ (by decide)
  · simp only [Except.error.injEq] at h
    subst h
    exact fsError_shape _ _ _

theorem readdirSync_error (P : PathMod) (fs : FS) (d : String) (e : JsVal)
    (h : readdirSync P fs d = .error e) : ∃ m, m ≠ "" ∧ e = newError m := by
  unfold readdirSync at h
  split at h
  · simp at h
  · simp only [Except.error.injEq] at h
    subst h
    exact fsError_shape _ _ _
  · simp only [Except.error.injEq] at h
    subst h
    exact fsError_shape _ _ _

theorem mkdtempSync_error (P : PathMod) (fs : FS) (stem suffix : String) (e : JsVal)
    (h : mkdtempSync P fs stem suffix = .error e) : ∃ m, m ≠ "" ∧ e = newError m := by
  unfold mkdtempSync at h
  simp only [] at h
  split at h
  · split at h
    · simp only [Except.error.injEq] at h
      subst h
      exact fsError_shape _ _ _
    · simp at h
  · simp only [Except.error.injEq] at h
    subst h
    exact fsError_shape _ _ _

theorem copyFileSync_error (P : PathMod) (fs : FS) (src dest : String) (e : JsVal)
    (h : copyFileSync P fs src dest = .error e) : ∃ m, m ≠ "" ∧ e = newError m := by
  unfold copyFileSync at h
  split at h
  · split at h
    · simp only [Except.error.injEq] at h
      subst h
      exact fsErrorPair_shape _ _ _ _
    · simp at h
    · simp only [Except.error.injEq] at h
      subst h
      exact fsErrorPair_shape _ _ _ _
  · simp only [Except.error.injEq] at h
    subst h
    exact fsErrorPair_shape _ _ _ _
  · simp only [Except.error.injEq] at h
    subst h
    exact fsErrorPair_shape _ _ _ _

theorem afterExec_throw (P : PathMod) (fs : FS) (outDir original : String) (e : JsVal)
    (h : (afterExec P fs outDir original).outcome = .throw e) : ∃ m, m ≠ "" ∧ e = newError m := by
  cases hls : readdirSync P fs outDir with
  | error e1 =>
    simp only [afterExec, hls, Outcome.throw.injEq] at h
    subst h
    exact readdirSync_error P fs outDir _ hls
  | ok files =>
    cases hex : existsSync fs (outPathOf P outDir original) with
    | false =>
      simp only [afterExec, hls, hex, Bool.not_false, ↓reduceIte, Outcome.throw.injEq] at h
      subst h
      exact ⟨_, append_ne_empty_left _ _ (by decide), rfl⟩
    | true =>
      cases hrd : readFileSync fs (outPathOf P outDir original) with
      | error e1 =>
        simp only [afterExec, hls, hex, hrd, Bool.not_true, Bool.false_eq_true, ↓reduceIte,
          Outcome.throw.injEq] at h
        subst h
        exact readFileSync_error fs _ _ hrd
      | ok b => simp [afterExec, hls, hex, hrd] at h

theorem winBranch_throw (h : Host) (fs : FS) (tempPath original : String) (e : JsVal)
    (ht : (winBranch h fs tempPath original).outcome = .throw e) :
    ∃ m, m ≠ "" ∧ e = newError m := by
  cases hmk : mkdtempSync h.path fs (h.path.join h.tmpdir "lo-out-") h.mkdtempSuffix with
  | error e1 =>
    simp only [winBranch, hmk, Outcome.throw.injEq] at ht
    subst ht
    exact mkdtempSync_error _ _ _ _ _ hmk
  | ok r =>
    obtain ⟨outDir, fs1⟩ := r
    cases hcp : copyFileSync h.path fs1 tempPath (h.path.join outDir original) with
    | error e1 =>
      simp only [winBranch, hmk, hcp, Outcome.throw.injEq] at ht
      subst ht
      exact copyFileSync_error _ _ _ _ _ hcp
    | ok fs2 =>
      cases hex : h.execFile (sofficeCmdOf h) (argsOf outDir (h.path.join outDir original))
          (execOptsOf h) fs2 with
      | hang fs3 => simp [winBranch, hmk, hcp, hex] at ht
      | callback err so se fs3 =>
        cases err with
        | some m =>
          rw [(winBranch_exec_error h fs fs1 fs2 fs3 tempPath original outDir m so se
            hmk hcp hex).1] at ht
          simp only [Outcome.throw.injEq] at ht
          subst ht
          refine ⟨_, ?_, rfl⟩
          refine append_ne_empty_left _ _ (append_ne_empty_left _ _ (append_ne_empty_left _ _ ?_))
          exact append_ne_empty_right _ _ (by decide)
        | none =>
          rw [(winBranch_exec_ok h fs fs1 fs2 fs3 tempPath original outDir so se
            hmk hcp hex).1] at ht
          exact afterExec_throw _ _ _ _ _ ht

theorem errorField_shape (e : JsVal) (h1 : e ≠ .str "") (h3 : e ≠ .error "" "")
    (h2 : ∀ m, e = .obj m → m.truthy = false ∨ ∃ s, m = .str s) :
    ∃ s, s ≠ "" ∧ errorField e = .str s := by
  cases e with
  | undefined => exact ⟨"undefined", by decide, rfl⟩
  | null => exact ⟨"null", by decide, rfl⟩
  | bool b => cases b <;> exact ⟨_, by decide, rfl⟩
  | str s =>
    have hs : s ≠ "" := fun hs => h1 (by rw [hs])
    exact ⟨s, hs, by simp [errorField, JsVal.and, JsVal.or, JsVal.truthy, JsVal.message,
      JsVal.toStr, hs]⟩
  | error n m =>
    by_cases hm : m = ""
    · subst hm
      have hn : n ≠ "" := fun hn => h3 (by rw [hn])
      exact ⟨n, hn, by simp [errorField, JsVal.and, JsVal.or, JsVal.truthy, JsVal.message,
        JsVal.toStr, hn]⟩
    · exact ⟨m, hm, errorField_error m hm⟩
  | obj m =>
    rcases h2 m rfl with hf | ⟨s, hs⟩
    · have hobj : (JsVal.obj m).truthy = true := rfl
      exact ⟨"[object Object]", by decide, by
        simp only [errorField, JsVal.and, JsVal.or, JsVal.message, JsVal.toStr, hobj, hf,
          ↓reduceIte, Bool.false_eq_true]⟩
    · subst hs
      by_cases hs : s = ""
      · subst hs
        exact ⟨"[object Object]", by decide, rfl⟩
      · exact ⟨s, hs, by simp [errorField, JsVal.and, JsVal.or, JsVal.truthy, JsVal.message, hs]⟩

theorem bridgeCallOf_args (h : Host) (input : Bytes) (format original : String)
    (hne : original ≠ "") :
    (bridgeCallOf h input format original).document = input
      ∧ (bridgeCallOf h input format original).format = format
      ∧ (h.hasConvertWithOptions = true →
          (bridgeCallOf h input format original).fn = .convertWithOptions
          ∧ ∃ o, (bridgeCallOf h input format original).options = some o
              ∧ o.fileName = original)
      ∧ (h.hasConvertWithOptions = false →
          (bridgeCallOf h input format original).fn = .convert
          ∧ (bridgeCallOf h input format original).options = none) := by
  unfold bridgeCallOf
  cases h.hasConvertWithOptions with
  | false => simp
  | true => simp [strOr_of_ne original "source" hne]

theorem route_exec_prepared (h : Host) (fs fs1 fs2 : FS) (file : UploadedFile) (input : Bytes)
    (outDir : String) (hwin : h.platform = "win32")
    (hread : readFileSync fs file.path = .ok input)
    (hmk : mkdtempSync h.path fs (h.path.join h.tmpdir "lo-out-") h.mkdtempSuffix
      = .ok (outDir, fs1))
    (hcp : copyFileSync h.path fs1 file.path (h.path.join outDir (originalOf h.path file))
      = .ok fs2) :
    (convertRoute h fs { file := some file }).trace.filter Effect.isExec
      = [.execFile (sofficeCmdOf h)
          (argsOf outDir (h.path.join outDir (originalOf h.path file))) (execOptsOf h)] := by
  rw [route_filter h fs file Effect.isExec (fun _ => rfl),
    (tryBlock_win h fs file input hwin hread).2.2]
  simp only [List.filter_cons, Effect.isExec, Bool.false_eq_true, ↓reduceIte]
  exact winBranch_exec_once h fs fs1 fs2 file.path (originalOf h.path file) outDir hmk hcp

theorem route_exec_mem (h : Host) (fs : FS) (file : UploadedFile) (cmd : String)
    (args : List String) (opts : ExecOptions)
    (hmem : Effect.execFile cmd args opts ∈ (convertRoute h fs { file := some file }).trace) :
    cmd = sofficeCmdOf h ∧ opts = execOptsOf h := by
  by_cases hwin : h.platform = "win32"
  · rcases (route_exec_win h fs file hwin).2 with h0 | ⟨outDir, fs1, fs2, _, _, h1⟩
    · exact absurd hmem (not_mem_of_filter_eq_nil _ _ _ h0 rfl)
    · have heq := mem_of_filter_eq_singleton _ _ _ _ h1 hmem rfl
      simp only [Effect.execFile.injEq] at heq
      exact ⟨heq.1, heq.2.2⟩
  · exact absurd hmem (not_mem_of_filter_eq_nil _ _ _ (route_bridge_else h fs file hwin).1 rfl)

theorem route_bridge_mem (h : Host) (fs : FS) (file : UploadedFile) (call : BridgeCall)
    (hmem : Effect.bridge call ∈ (convertRoute h fs { file := some file }).trace) :
    ∃ input, call = bridgeCallOf h input "pdf" (originalOf h.path file) := by
  by_cases hwin : h.platform = "win32"
  · exact absurd hmem (not_mem_of_filter_eq_nil _ _ _ (route_exec_win h fs file hwin).1 rfl)
  · rcases (route_bridge_else h fs file hwin).2 with ⟨h0, _⟩ | ⟨input, _, h1⟩
    · exact absurd hmem (not_mem_of_filter_eq_nil _ _ _ h0 rfl)
    · have heq := mem_of_filter_eq_singleton _ _ _ _ h1 hmem rfl
      simp only [Effect.bridge.injEq] at heq
      exact ⟨input, heq⟩

theorem override_set (h : Host) (exe : String) (henv : h.LIBRE_OFFICE_EXE = some exe)
    (hne : exe ≠ "") :
    sofficeCmdOf h = exe ∧ execOptsOf h = { cwd := some (h.path.dirname exe) } := by
  simp [sofficeCmdOf, execOptsOf, optOr, optTruthy, strOr, henv, hne]

theorem override_unset (h : Host)
    (henv : h.LIBRE_OFFICE_EXE = none ∨ h.LIBRE_OFFICE_EXE = some "") :
    sofficeCmdOf h = "soffice" ∧ execOptsOf h = { cwd := none } := by
  rcases henv with henv | henv <;> simp [sofficeCmdOf, execOptsOf, optOr, optTruthy, strOr, henv]

theorem bridgeCallOf_set (h : Host) (exe : String) (henv : h.LIBRE_OFFICE_EXE = some exe)
    (hne : exe ≠ "") (input : Bytes) (format fileName : String) :
    (h.hasConvertWithOptions = true →
        (bridgeCallOf h input format fileName).fn = .convertWithOptions
        ∧ ∃ o, (bridgeCallOf h input format fileName).options = some o
            ∧ o.execOptions = some { cwd := some (h.path.dirname exe) })
      ∧ (h.hasConvertWithOptions = false →
        (bridgeCallOf h input format fileName).fn = .convert
        ∧ (bridgeCallOf h input format fileName).options = none) := by
  constructor
  · intro hc
    simp [bridgeCallOf, hc, optOr, strOr, henv, hne]
  · intro hc
    simp [bridgeCallOf, hc]

theorem bridgeCallOf_unset (h : Host)
    (henv : h.LIBRE_OFFICE_EXE = none ∨ h.LIBRE_OFFICE_EXE = some "")
    (input : Bytes) (format fileName : String) :
    ∀ o, (bridgeCallOf h input format fileName).options = some o → o.execOptions = none := by
  intro o ho
  unfold bridgeCallOf at ho
  cases hc : h.hasConvertWithOptions with
  | false => simp [hc] at ho
  | true =>
    rcases henv with henv | henv <;>
      · simp only [hc, ↓reduceIte, optOr, strOr, henv, bne_self_eq_false, Bool.false_eq_true,
          Option.some.injEq] at ho
        rw [← ho]

theorem tryBlock_throw_win (h : Host) (fs : FS) (file : UploadedFile) (e : JsVal)
    (hwin : h.platform = "win32") (ht : (tryBlock h fs file).outcome = .throw e) :
    ∃ m, m ≠ "" ∧ e = newError m := by
  cases hread : readFileSync fs file.path with
  | error e1 =>
    rw [(tryBlock_unread h fs file e1 hread).1] at ht
    simp only [Outcome.throw.injEq] at ht
    subst ht
    exact readFileSync_error fs _ _ hread
  | ok input =>
    rw [(tryBlock_win h fs file input hwin hread).1] at ht
    exact winBranch_throw h fs file.path _ e ht

theorem elseBranch_rejected (h : Host) (fs : FS) (input : Bytes) (original : String) (e : JsVal)
    (hrej : (convertAsync h input "pdf" original).1 = .rejected e) :
    (elseBranch h fs input original).outcome = .throw e := by
  unfold elseBranch
  simp only [hrej]

/-! ## Every failure of the conversion step is answered with 500 -/

theorem winBranch_mkdtemp_error (h : Host) (fs : FS) (tempPath original : String) (e : JsVal)
    (hmk : mkdtempSync h.path fs (h.path.join h.tmpdir "lo-out-") h.mkdtempSuffix = .error e) :
    (winBranch h fs tempPath original).outcome = .throw e := by
  simp [winBranch, hmk]

theorem winBranch_copy_error (h : Host) (fs fs1 : FS) (tempPath original outDir : String)
    (e : JsVal)
    (hmk : mkdtempSync h.path fs (h.path.join h.tmpdir "lo-out-") h.mkdtempSuffix
      = .ok (outDir, fs1))
    (hcp : copyFileSync h.path fs1 tempPath (h.path.join outDir original) = .error e) :
    (winBranch h fs tempPath original).outcome = .throw e := by
  simp [winBranch, hmk, hcp]

theorem afterExec_unlisted (P : PathMod) (fs : FS) (outDir original : String) (e : JsVal)
    (hls : readdirSync P fs outDir = .error e) :
    (afterExec P fs outDir original).outcome = .throw e := by
  simp [afterExec, hls]

theorem afterExec_absent (P : PathMod) (fs : FS) (outDir original : String)
    (files : List String) (hls : readdirSync P fs outDir = .ok files)
    (hex : existsSync fs (outPathOf P outDir original) = false) :
    (afterExec P fs outDir original).outcome
      = .throw (newError ("Converted file not found; outdir files: "
          ++ ", ".intercalate files)) := by
  simp [afterExec, hls, hex]

theorem afterExec_unreadable (P : PathMod) (fs : FS) (outDir original : String)
    (files : List String) (e : JsVal) (hls : readdirSync P fs outDir = .ok files)
    (hex : existsSync fs (outPathOf P outDir original) = true)
    (hrd : readFileSync fs (outPathOf P outDir original) = .error e) :
    (afterExec P fs outDir original).outcome = .throw e := by
  simp [afterExec, hls, hex, hrd]

theorem route_throw (h : Host) (fs : FS) (file : UploadedFile) (e : JsVal)
    (ht : (tryBlock h fs file).outcome = .throw e) :
    (convertRoute h fs { file := some file }).response
      = some { status := 500, headers := [], body := .json (errorField e) } := by
  rw [route_response, ht]
  rfl

theorem route_throw_error (h : Host) (fs : FS) (file : UploadedFile) (e : JsVal)
    (ht : (tryBlock h fs file).outcome = .throw e)
    (hs : ∃ m, m ≠ "" ∧ e = newError m) :
    ∃ s, s ≠ "" ∧ errorField e = .str s
      ∧ (convertRoute h fs { file := some file }).response
        = some { status := 500, headers := [], body := .json (.str s) } := by
  obtain ⟨m, hm, hem⟩ := hs
  subst hem
  refine ⟨m, hm, errorField_error m hm, ?_⟩
  rw [route_throw h fs file _ ht, errorField_error m hm]

theorem process_message_ne_empty (m s o : String) : m ++ "\n" ++ s ++ "\n" ++ o ≠ "" := by
  refine append_ne_empty_left _ _ (append_ne_empty_left _ _ (append_ne_empty_left _ _ ?_))
  exact append_ne_empty_right _ _ (by decide)

/-! ## The claims -/

/-- C1: with a file attached, whenever the conversion step yields a buffer `b`
(on win32: the upload is read, the directory made, the input copied, the
process calls back without error and the expected output path holds a file
with contents `b`; elsewhere: the upload is read and the promise of
`convertAsync` is fulfilled with `b`), the response has status 200, the
headers `Content-Type: application/pdf` and
`Content-Disposition: attachment; filename="output.pdf"`, and body exactly
`b`; so the body is not empty and begins with `%PDF-` whenever `b` does. -/
theorem C1_success_sends_pdf (h : Host) (fs : FS) (file : UploadedFile) (b : Bytes)
    (hy :
      (h.platform = "win32" ∧
        ∃ input outDir fs1 fs2 fs3 so se,
          readFileSync fs file.path = .ok input ∧
          mkdtempSync h.path fs (h.path.join h.tmpdir "lo-out-") h.mkdtempSuffix
            = .ok (outDir, fs1) ∧
          copyFileSync h.path fs1 file.path (h.path.join outDir (originalOf h.path file))
            = .ok fs2 ∧
          h.execFile (sofficeCmdOf h)
              (argsOf outDir (h.path.join outDir (originalOf h.path file))) (execOptsOf h) fs2
            = .callback none so se fs3 ∧
          fs3.node outDir = some .dir ∧
          fs3.node (outPathOf h.path outDir (originalOf h.path file)) = some (.file b))
      ∨ (h.platform ≠ "win32" ∧
        ∃ input,
          readFileSync fs file.path = .ok input ∧
          (convertAsync h input "pdf" (originalOf h.path file)).1 = .fulfilled b)) :
    (convertRoute h fs { file := some file }).response
        = some { status := 200,
                 headers := [("Content-Type", "application/pdf"),
                             ("Content-Disposition", "attachment; filename=\"output.pdf\"")],
                 body := .send b }
      ∧ ([37, 80, 68, 70, 45] <+: b →
          ∃ r c, (convertRoute h fs { file := some file }).response = some r
            ∧ r.body = .send c ∧ c ≠ [] ∧ [37, 80, 68, 70, 45] <+: c) := by
  have hresp : (convertRoute h fs { file := some file }).response
      = some { status := 200,
               headers := [("Content-Type", "application/pdf"),
                           ("Content-Disposition", "attachment; filename=\"output.pdf\"")],
               body := .send b } := by
    rw [route_response]
    rcases hy with ⟨hwin, input, outDir, fs1, fs2, fs3, so, se, hread, hmk, hcp, hex, hdir, hout⟩
      | ⟨hwin, input, hread, hful⟩
    · rw [(tryBlock_win h fs file input hwin hread).1,
        (winBranch_exec_ok h fs fs1 fs2 fs3 _ _ outDir so se hmk hcp hex).1,
        (afterExec_found h.path fs3 outDir _ b hdir hout).1]
      rfl
    · rw [(tryBlock_else h fs file input hwin hread).1]
      unfold elseBranch
      simp only [hful]
      rfl
  refine ⟨hresp, ?_⟩
  intro hsig
  refine ⟨_, b, hresp, rfl, ?_, hsig⟩
  intro hb
  subst hb
  simp at hsig

/-- C1 on the example hosts: the Windows host and the Linux host both answer
`sample.txt` with status 200 and the converted bytes. -/
theorem C1_success_sends_pdf_witness :
    (convertRoute winHost winFs { file := some winFile }).response
        = some { status := 200,
                 headers := [("Content-Type", "application/pdf"),
                             ("Content-Disposition", "attachment; filename=\"output.pdf\"")],
                 body := .send pdfBytes }
      ∧ (convertRoute linuxHost linuxFs { file := some linuxFile }).response
        = some { status := 200,
                 headers := [("Content-Type", "application/pdf"),
                             ("Content-Disposition", "attachment; filename=\"output.pdf\"")],
                 body := .send pdfBytes } :=
  ⟨(C1_success_sends_pdf winHost winFs winFile pdfBytes
      (Or.inl ⟨rfl, [104, 105], "C:\\tmp\\lo-out-a1b2c3", _, _, _, some "convert", none,
        rfl, rfl, rfl, rfl, by decide, by decide⟩)).1,
   (C1_success_sends_pdf linuxHost linuxFs linuxFile pdfBytes
      (Or.inr ⟨by decide, [104, 105], rfl, rfl⟩)).1⟩

/-- C2: a request without a `file` field is answered with status 400 and a
JSON body that has the `error` key; the route returns at once: it makes no
call at all (no converter, no temporary directory, no file read or deleted)
and leaves the file system as it was. -/
theorem C2_no_file_is_400 (h : Host) (fs : FS) (req : Request) (hreq : req.file = none) :
    (convertRoute h fs req).response
        = some { status := 400, headers := [],
                 body := .json (.str "No file uploaded (field name should be `file`)") }
      ∧ (convertRoute h fs req).trace = []
      ∧ (convertRoute h fs req).fs = fs := by
  unfold convertRoute
  simp [hreq]

/-- C2 on the Windows example host, request without a file. -/
theorem C2_no_file_is_400_witness :
    (convertRoute winHost winFs { file := none }).response
        = some { status := 400, headers := [],
                 body := .json (.str "No file uploaded (field name should be `file`)") }
      ∧ (convertRoute winHost winFs { file := none }).trace = []
      ∧ (convertRoute winHost winFs { file := none }).fs = winFs :=
  C2_no_file_is_400 winHost winFs { file := none } rfl

/-- C3 (amended): with a file attached, every failure of the conversion is
answered with status 500 and the JSON body
`{ error: (e && e.message) || String(e) }`, `e` being the value the failure
carries, and no PDF body is sent.  This is so when the upload cannot be read;
on win32 when the directory cannot be made, when the input cannot be copied,
when the process reports an error, when the output directory cannot be
listed, when the output is not found and when the output cannot be read; on
the other platforms when the promise of `convertAsync` is rejected.  In all of
these but the last the `error` field is a non-empty string.  For a rejected
promise it is a non-empty string when `e` is `undefined`, `null`, a boolean, a
non-empty string, an `Error` whose name or message is not empty, or a plain
object whose `message` is falsy or a string. -/
theorem C3_failure_is_500 (h : Host) (fs : FS) (file : UploadedFile) :
    (∀ e, readFileSync fs file.path = .error e →
        ∃ s, s ≠ "" ∧ errorField e = .str s
          ∧ (convertRoute h fs { file := some file }).response
            = some { status := 500, headers := [], body := .json (.str s) })
      ∧ (h.platform = "win32" →
          ∀ input, readFileSync fs file.path = .ok input →
            (∀ e,
              mkdtempSync h.path fs (h.path.join h.tmpdir "lo-out-") h.mkdtempSuffix
                = .error e →
              ∃ s, s ≠ "" ∧ errorField e = .str s
                ∧ (convertRoute h fs { file := some file }).response
                  = some { status := 500, headers := [], body := .json (.str s) })
            ∧ (∀ outDir fs1,
              mkdtempSync h.path fs (h.path.join h.tmpdir "lo-out-") h.mkdtempSuffix
                = .ok (outDir, fs1) →
              (∀ e,
                copyFileSync h.path fs1 file.path
                    (h.path.join outDir (originalOf h.path file)) = .error e →
                ∃ s, s ≠ "" ∧ errorField e = .str s
                  ∧ (convertRoute h fs { file := some file }).response
                    = some { status := 500, headers := [], body := .json (.str s) })
              ∧ (∀ fs2,
                copyFileSync h.path fs1 file.path
                    (h.path.join outDir (originalOf h.path file)) = .ok fs2 →
                (∀ m so se fs3,
                  h.execFile (sofficeCmdOf h)
                      (argsOf outDir (h.path.join outDir (originalOf h.path file)))
                      (execOptsOf h) fs2 = .callback (some m) so se fs3 →
                  m ++ "\n" ++ se.getD "" ++ "\n" ++ so.getD "" ≠ ""
                    ∧ (convertRoute h fs { file := some file }).response
                      = some { status := 500, headers := [],
                               body := .json (.str
                                 (m ++ "\n" ++ se.getD "" ++ "\n" ++ so.getD "")) })
                ∧ (∀ so se fs3,
                  h.execFile (sofficeCmdOf h)
                      (argsOf outDir (h.path.join outDir (originalOf h.path file)))
                      (execOptsOf h) fs2 = .callback none so se fs3 →
                  (∀ e, readdirSync h.path fs3 outDir = .error e →
                    ∃ s, s ≠ "" ∧ errorField e = .str s
                      ∧ (convertRoute h fs { file := some file }).response
                        = some { status := 500, headers := [], body := .json (.str s) })
                  ∧ (∀ files, readdirSync h.path fs3 outDir = .ok files →
                    (existsSync fs3 (outPathOf h.path outDir (originalOf h.path file))
                        = false →
                      "Converted file not found; outdir files: "
                          ++ ", ".intercalate files ≠ ""
                        ∧ (convertRoute h fs { file := some file }).response
                          = some { status := 500, headers := [],
                                   body := .json (.str
                                     ("Converted file not found; outdir files: "
                                       ++ ", ".intercalate files)) })
                    ∧ (∀ e,
                      existsSync fs3 (outPathOf h.path outDir (originalOf h.path file))
                        = true →
                      readFileSync fs3 (outPathOf h.path outDir (originalOf h.path file))
                        = .error e →
                      ∃ s, s ≠ "" ∧ errorField e = .str s
                        ∧ (convertRoute h fs { file := some file }).response
                          = some { status := 500, headers := [],
                                   body := .json (.str s) }))))))
      ∧ (h.platform ≠ "win32" →
          ∀ input e, readFileSync fs file.path = .ok input →
            (convertAsync h input "pdf" (originalOf h.path file)).1 = .rejected e →
            (convertRoute h fs { file := some file }).response
                = some { status := 500, headers := [], body := .json (errorField e) }
              ∧ (e ≠ .str "" → e ≠ .error "" "" →
                  (∀ m, e = .obj m → m.truthy = false ∨ ∃ s, m = .str s) →
                  ∃ s, s ≠ "" ∧ errorField e = .str s))
      ∧ (∀ e, (tryBlock h fs file).outcome = .throw e →
          (convertRoute h fs { file := some file }).response
              = some { status := 500, headers := [], body := .json (errorField e) }
            ∧ (∀ r b, (convertRoute h fs { file := some file }).response = some r →
                r.body ≠ .send b)
            ∧ (h.platform = "win32" → ∃ s, s ≠ "" ∧ errorField e = .str s)) := by
  refine ⟨?_, ?_, ?_, ?_⟩
  · intro e hread
    exact route_throw_error h fs file e (tryBlock_unread h fs file e hread).1
      (readFileSync_error fs _ e hread)
  · intro hwin input hread
    have htry := (tryBlock_win h fs file input hwin hread).1
    refine ⟨?_, ?_⟩
    · intro e hmk
      refine route_throw_error h fs file e ?_ (mkdtempSync_error _ _ _ _ e hmk)
      rw [htry]
      exact winBranch_mkdtemp_error h fs _ _ e hmk
    · intro outDir fs1 hmk
      refine ⟨?_, ?_⟩
      · intro e hcp
        refine route_throw_error h fs file e ?_ (copyFileSync_error _ _ _ _ e hcp)
        rw [htry]
        exact winBranch_copy_error h fs fs1 _ _ outDir e hmk hcp
      · intro fs2 hcp
        refine ⟨?_, ?_⟩
        · intro m so se fs3 hex
          refine ⟨process_message_ne_empty _ _ _, ?_⟩
          have ht : (tryBlock h fs file).outcome
              = .throw (newError (m ++ "\n" ++ se.getD "" ++ "\n" ++ so.getD "")) := by
            rw [htry, (winBranch_exec_error h fs fs1 fs2 fs3 file.path _ outDir m so se
              hmk hcp hex).1, optOr_empty, optOr_empty]
          rw [route_throw h fs file _ ht, errorField_error _ (process_message_ne_empty _ _ _)]
        · intro so se fs3 hex
          have hbr := (winBranch_exec_ok h fs fs1 fs2 fs3 file.path (originalOf h.path file)
            outDir so se hmk hcp hex).1
          refine ⟨?_, ?_⟩
          · intro e hls
            refine route_throw_error h fs file e ?_ (readdirSync_error _ _ _ e hls)
            rw [htry, hbr]
            exact afterExec_unlisted _ _ _ _ e hls
          · intro files hls
            refine ⟨?_, ?_⟩
            · intro hex2
              have hne : "Converted file not found; outdir files: "
                  ++ ", ".intercalate files ≠ "" := append_ne_empty_left _ _ (by decide)
              refine ⟨hne, ?_⟩
              have ht : (tryBlock h fs file).outcome
                  = .throw (newError ("Converted file not found; outdir files: "
                      ++ ", ".intercalate files)) := by
                rw [htry, hbr]
                exact afterExec_absent _ _ _ _ files hls hex2
              rw [route_throw h fs file _ ht, errorField_error _ hne]
            · intro e hex2 hrd
              refine route_throw_error h fs file e ?_ (readFileSync_error _ _ e hrd)
              rw [htry, hbr]
              exact afterExec_unreadable _ _ _ _ files e hls hex2 hrd
  · intro hwin input e hread hrej
    refine ⟨route_throw h fs file e ?_, errorField_shape e⟩
    rw [(tryBlock_else h fs file input hwin hread).1]
    exact elseBranch_rejected h fs input _ e hrej
  · intro e ht
    have hresp := route_throw h fs file e ht
    refine ⟨hresp, ?_, ?_⟩
    · intro r b hr hbody
      rw [hresp] at hr
      simp only [Option.some.injEq] at hr
      subst hr
      simp at hbody
    · intro hwin
      obtain ⟨m, hm, hem⟩ := tryBlock_throw_win h fs file e hwin ht
      subst hem
      exact ⟨m, hm, errorField_error m hm⟩

/-- C3 (amended) on the example hosts: a bridge that reports an `Error`, an
upload that cannot be read, a temporary directory that cannot be made. -/
theorem C3_failure_is_500_witness :
    (convertRoute linuxHostRejects linuxFs { file := some linuxFile }).response
        = some { status := 500, headers := [],
                 body := .json (errorField (newError "soffice: command not found")) }
      ∧ errorField (newError "soffice: command not found") = .str "soffice: command not found"
      ∧ (∃ s, s ≠ ""
          ∧ errorField (fsError "ENOENT: no such file or directory" "open" "uploads\\f00")
            = .str s
          ∧ (convertRoute winHost winFsBare { file := some winFile }).response
            = some { status := 500, headers := [], body := .json (.str s) })
      ∧ (∃ s, s ≠ ""
          ∧ errorField
              (fsError "ENOENT: no such file or directory" "mkdtemp" "C:\\tmp\\lo-out-XXXXXX")
            = .str s
          ∧ (convertRoute winHost winFsNoTmp { file := some winFile }).response
            = some { status := 500, headers := [], body := .json (.str s) }) :=
  ⟨((C3_failure_is_500 linuxHostRejects linuxFs linuxFile).2.2.1 (by decide) [104, 105]
      (newError "soffice: command not found") rfl rfl).1,
   by decide,
   (C3_failure_is_500 winHost winFsBare winFile).1 _ rfl,
   ((C3_failure_is_500 winHost winFsNoTmp winFile).2.1 rfl [104, 105] rfl).1 _ rfl⟩

/-- C3 as stated fails: on a Linux host whose bridge throws the empty string,
the conversion fails and the response is status 500 with `error` equal to the
empty string, not a non-empty diagnostic; the same happens when the bridge
throws an `Error` whose name and message are empty. -/
theorem C3_counterexample_empty_message :
    (tryBlock linuxHostThrows linuxFs linuxFile).outcome = .throw (.str "")
      ∧ (convertRoute linuxHostThrows linuxFs { file := some linuxFile }).response
        = some { status := 500, headers := [], body := .json (.str "") }
      ∧ (¬ ∃ s, s ≠ ""
          ∧ (convertRoute linuxHostThrows linuxFs { file := some linuxFile }).response
            = some { status := 500, headers := [], body := .json (.str s) })
      ∧ (tryBlock linuxHostThrowsBlank linuxFs linuxFile).outcome = .throw (.error "" "")
      ∧ (convertRoute linuxHostThrowsBlank linuxFs { file := some linuxFile }).response
        = some { status := 500, headers := [], body := .json (.str "") } := by
  refine ⟨by decide, by decide, ?_, by decide, by decide⟩
  rintro ⟨s, hs, hresp⟩
  have h0 : (convertRoute linuxHostThrows linuxFs { file := some linuxFile }).response
      = some { status := 500, headers := [], body := .json (.str "") } := by decide
  rw [h0] at hresp
  simp only [Option.some.injEq, Response.mk.injEq, Body.json.injEq, JsVal.str.injEq,
    true_and] at hresp
  exact hs hresp.symm

/-- C4 fails on the code: on win32, after a request that succeeded (status
200), `rmdirSync(outDir)` has been called and yet the temporary directory and
the copied input are still on the file system; after a request whose process
failed, and after one whose process left no output, they are still there as
well, no removal having been attempted. -/
theorem C4_outdir_survives :
    ((convertRoute winHost winFs { file := some winFile }).response
        = some { status := 200, headers := pdfHeaders, body := .send pdfBytes }
      ∧ Effect.rmdirSync "C:\\tmp\\lo-out-a1b2c3"
          ∈ (convertRoute winHost winFs { file := some winFile }).trace
      ∧ existsSync (convertRoute winHost winFs { file := some winFile }).fs
          "C:\\tmp\\lo-out-a1b2c3" = true
      ∧ existsSync (convertRoute winHost winFs { file := some winFile }).fs
          "C:\\tmp\\lo-out-a1b2c3\\sample.txt" = true
      ∧ existsSync (convertRoute winHost winFs { file := some winFile }).fs
          "C:\\tmp\\lo-out-a1b2c3\\sample.pdf" = false)
      ∧ (existsSync (convertRoute winHostFails winFs { file := some winFile }).fs
          "C:\\tmp\\lo-out-a1b2c3" = true
        ∧ existsSync (convertRoute winHostFails winFs { file := some winFile }).fs
          "C:\\tmp\\lo-out-a1b2c3\\sample.txt" = true
        ∧ Effect.rmdirSync "C:\\tmp\\lo-out-a1b2c3"
          ∉ (convertRoute winHostFails winFs { file := some winFile }).trace)
      ∧ (existsSync (convertRoute winHostSilent winFs { file := some winFile }).fs
          "C:\\tmp\\lo-out-a1b2c3" = true
        ∧ existsSync (convertRoute winHostSilent winFs { file := some winFile }).fs
          "C:\\tmp\\lo-out-a1b2c3\\sample.txt" = true
        ∧ Effect.rmdirSync "C:\\tmp\\lo-out-a1b2c3"
          ∉ (convertRoute winHostSilent winFs { file := some winFile }).trace) := by
  refine ⟨⟨by decide, by decide, by decide, by decide, by decide⟩,
    ⟨by decide, by decide, by decide⟩, ⟨by decide, by decide, by decide⟩⟩

/-- C5: with a file attached, whenever the route responds (status 200 or
500), the deletion `fs.unlink(req.file.path)` is issued exactly once, as the
last call; the response is the one the `try` / `catch` pair determined, and
when the deletion fails the failure is swallowed: the response is unchanged
and the file system is left as the `try` block left it. -/
theorem C5_upload_deleted_once (h : Host) (fs : FS) (file : UploadedFile)
    (hdone : (convertRoute h fs { file := some file }).response ≠ none) :
    (convertRoute h fs { file := some file }).trace.count (Effect.unlink file.path) = 1
      ∧ (convertRoute h fs { file := some file }).trace
          = (tryBlock h fs file).trace ++ [Effect.unlink file.path]
      ∧ (∃ r, (convertRoute h fs { file := some file }).response = some r
          ∧ (r.status = 200 ∨ r.status = 500))
      ∧ (convertRoute h fs { file := some file }).response
          = respond (tryBlock h fs file).outcome
      ∧ (∀ e, unlinkSync (tryBlock h fs file).fs file.path = .error e →
          (convertRoute h fs { file := some file }).response
              = respond (tryBlock h fs file).outcome
            ∧ (convertRoute h fs { file := some file }).fs = (tryBlock h fs file).fs) := by
  have hresp := route_response h fs file
  have hnh : (tryBlock h fs file).outcome ≠ .hang := by
    intro hh
    rw [hresp, hh] at hdone
    exact hdone rfl
  have htrace : (convertRoute h fs { file := some file }).trace
      = (tryBlock h fs file).trace ++ [Effect.unlink file.path] := by
    rw [route_trace]
    simp [hnh]
  refine ⟨?_, htrace, ?_, hresp, ?_⟩
  · rw [htrace, List.count_append,
      List.count_eq_zero.mpr (tryBlock_no_unlink h fs file file.path)]
    simp
  · rw [hresp]
    cases hout : (tryBlock h fs file).outcome with
    | ok b => exact ⟨_, rfl, Or.inl rfl⟩
    | throw e => exact ⟨_, rfl, Or.inr rfl⟩
    | hang => exact absurd hout hnh
  · intro e he
    refine ⟨hresp, ?_⟩
    rw [route_fs h fs file hnh, he]
    rfl

/-- C5 on the Windows example host: one `unlink` after a success and after an
unreadable upload, where the deletion itself fails and nothing changes. -/
theorem C5_upload_deleted_once_witness :
    (convertRoute winHost winFs { file := some winFile }).trace.count
        (Effect.unlink "uploads\\f00") = 1
      ∧ (convertRoute winHost winFsBare { file := some winFile }).trace.count
        (Effect.unlink "uploads\\f00") = 1
      ∧ (convertRoute winHost winFsBare { file := some winFile }).fs = winFsBare :=
  ⟨(C5_upload_deleted_once winHost winFs winFile (by decide)).1,
   (C5_upload_deleted_once winHost winFsBare winFile (by decide)).1,
   ((C5_upload_deleted_once winHost winFsBare winFile (by decide)).2.2.2.2
      (fsError "ENOENT: no such file or directory" "unlink" "uploads\\f00") rfl).2⟩

/-- C6 (amended): with a file attached, on win32 the bridge is never called
and `execFile` is called at most once, only with the command of line 81 and
the arguments `--headless --convert-to pdf --outdir outDir inPath`, `outDir`
being the directory `mkdtempSync` has just created and `inPath` being `outDir`
joined with the original file name; it is called exactly once when the upload
was read, the directory made and the input copied.  On every other platform
`execFile` is never called and the bridge is called at most once, by
`convertAsync(input, 'pdf', original)`; exactly once when the upload was read.
That call carries the bytes of the upload and the format `pdf`; when the
bridge has `convertWithOptions` it goes through it with `options.fileName`
equal to the original file name, and when it has not it goes through the
fallback `convert`, which is given no options, hence no file name.  The
original file name is `req.file.originalname` when that is not empty, and
`source` followed by `path.extname('')` when it is. -/
theorem C6_platform_dispatch (h : Host) (fs : FS) (file : UploadedFile) :
    (h.platform = "win32" →
        (convertRoute h fs { file := some file }).trace.countP Effect.isBridge = 0
        ∧ (convertRoute h fs { file := some file }).trace.countP Effect.isExec ≤ 1
        ∧ (∀ cmd args opts,
            Effect.execFile cmd args opts ∈ (convertRoute h fs { file := some file }).trace →
            cmd = sofficeCmdOf h
              ∧ ∃ outDir fs1,
                  mkdtempSync h.path fs (h.path.join h.tmpdir "lo-out-") h.mkdtempSuffix
                    = .ok (outDir, fs1)
                  ∧ existsSync fs outDir = false
                  ∧ fs1.node outDir = some .dir
                  ∧ args = ["--headless", "--convert-to", "pdf", "--outdir", outDir,
                            h.path.join outDir (originalOf h.path file)])
        ∧ (∀ input outDir fs1 fs2,
            readFileSync fs file.path = .ok input →
            mkdtempSync h.path fs (h.path.join h.tmpdir "lo-out-") h.mkdtempSuffix
              = .ok (outDir, fs1) →
            copyFileSync h.path fs1 file.path (h.path.join outDir (originalOf h.path file))
              = .ok fs2 →
            (convertRoute h fs { file := some file }).trace.countP Effect.isExec = 1))
      ∧ (h.platform ≠ "win32" →
        (convertRoute h fs { file := some file }).trace.countP Effect.isExec = 0
        ∧ (convertRoute h fs { file := some file }).trace.countP Effect.isBridge ≤ 1
        ∧ (∀ call,
            Effect.bridge call ∈ (convertRoute h fs { file := some file }).trace →
            ∃ input,
              readFileSync fs file.path = .ok input
              ∧ [Effect.bridge call] = (convertAsync h input "pdf" (originalOf h.path file)).2
              ∧ call.document = input
              ∧ call.format = "pdf"
              ∧ (h.hasConvertWithOptions = true →
                  call.fn = .convertWithOptions
                  ∧ ∃ o, call.options = some o ∧ o.fileName = originalOf h.path file)
              ∧ (h.hasConvertWithOptions = false →
                  call.fn = .convert ∧ call.options = none))
        ∧ (∀ input,
            readFileSync fs file.path = .ok input →
            (convertRoute h fs { file := some file }).trace.countP Effect.isBridge = 1))
      ∧ (file.originalname ≠ "" → originalOf h.path file = file.originalname)
      ∧ (file.originalname = "" → originalOf h.path file = "source" ++ h.path.extname "") := by
  refine ⟨?_, ?_, originalOf_eq h.path file, originalOf_blank h.path file⟩
  · intro hwin
    obtain ⟨hb, hx⟩ := route_exec_win h fs file hwin
    refine ⟨?_, ?_, ?_, ?_⟩
    · rw [List.countP_eq_length_filter, hb]
      rfl
    · rw [List.countP_eq_length_filter]
      rcases hx with h0 | ⟨outDir, fs1, fs2, _, _, h1⟩
      · rw [h0]
        exact Nat.zero_le 1
      · rw [h1]
        exact Nat.le_refl 1
    · intro cmd args opts hmem
      rcases hx with h0 | ⟨outDir, fs1, fs2, hmk, _, h1⟩
      · exact absurd hmem (not_mem_of_filter_eq_nil _ _ _ h0 rfl)
      · have heq := mem_of_filter_eq_singleton _ _ _ _ h1 hmem rfl
        simp only [Effect.execFile.injEq] at heq
        obtain ⟨hfresh1, hfresh2, hfresh3⟩ := mkdtempSync_fresh _ _ _ _ _ _ hmk
        exact ⟨heq.1, outDir, fs1, hmk, hfresh2, hfresh3, heq.2.1⟩
    · intro input outDir fs1 fs2 hread hmk hcp
      rw [List.countP_eq_length_filter,
        route_exec_prepared h fs fs1 fs2 file input outDir hwin hread hmk hcp]
      rfl
  · intro hwin
    obtain ⟨hx, hb⟩ := route_bridge_else h fs file hwin
    refine ⟨?_, ?_, ?_, ?_⟩
    · rw [List.countP_eq_length_filter, hx]
      rfl
    · rw [List.countP_eq_length_filter]
      rcases hb with ⟨h0, _⟩ | ⟨input, _, h1⟩
      · rw [h0]
        exact Nat.zero_le 1
      · rw [h1]
        exact Nat.le_refl 1
    · intro call hmem
      rcases hb with ⟨h0, _⟩ | ⟨input, hread, h1⟩
      · exact absurd hmem (not_mem_of_filter_eq_nil _ _ _ h0 rfl)
      · have heq := mem_of_filter_eq_singleton _ _ _ _ h1 hmem rfl
        simp only [Effect.bridge.injEq] at heq
        subst heq
        obtain ⟨a1, a2, a3, a4⟩ := bridgeCallOf_args h input "pdf" (originalOf h.path file)
          (originalOf_ne_empty h.path file)
        exact ⟨input, hread, rfl, a1, a2, a3, a4⟩
    · intro input hread
      rw [List.countP_eq_length_filter]
      rcases hb with ⟨_, e, he⟩ | ⟨input2, _, h1⟩
      · rw [hread] at he
        simp at he
      · rw [h1]
        rfl

/-- C6 (amended) on the example hosts: one `execFile` call and no bridge call
on Windows, one bridge call and no `execFile` call on Linux. -/
theorem C6_platform_dispatch_witness :
    (convertRoute winHost winFs { file := some winFile }).trace.countP Effect.isExec = 1
      ∧ (convertRoute winHost winFs { file := some winFile }).trace.countP Effect.isBridge = 0
      ∧ (convertRoute linuxHost linuxFs { file := some linuxFile }).trace.countP Effect.isBridge
          = 1
      ∧ (convertRoute linuxHost linuxFs { file := some linuxFile }).trace.countP Effect.isExec
          = 0
      ∧ originalOf winHost.path winFile = "sample.txt"
      ∧ (Effect.bridge
          { fn := .convertWithOptions, document := [104, 105], format := "pdf",
            options := some { fileName := "sample.txt", execOptions := none } }
          ∈ (convertRoute linuxHost linuxFs { file := some linuxFile }).trace)
      ∧ (∃ o, (some { fileName := "sample.txt", execOptions := none } : Option BridgeOptions)
            = some o
          ∧ o.fileName = originalOf linuxHost.path linuxFile) :=
  ⟨(C6_platform_dispatch winHost winFs winFile).1 rfl |>.2.2.2 [104, 105]
      "C:\\tmp\\lo-out-a1b2c3" _ _ rfl rfl rfl,
   ((C6_platform_dispatch winHost winFs winFile).1 rfl).1,
   ((C6_platform_dispatch linuxHost linuxFs linuxFile).2.1 (by decide)).2.2.2 [104, 105] rfl,
   ((C6_platform_dispatch linuxHost linuxFs linuxFile).2.1 (by decide)).1,
   (C6_platform_dispatch winHost winFs winFile).2.2.1 (by decide),
   by decide,
   (Exists.choose_spec
      (((C6_platform_dispatch linuxHost linuxFs linuxFile).2.1 (by decide)).2.2.1
        { fn := .convertWithOptions, document := [104, 105], format := "pdf",
          options := some { fileName := "sample.txt", execOptions := none } }
        (by decide))).2.2.2.2.1 rfl |>.2⟩

/-- C6 as stated fails in two ways.  On win32, with a file attached whose
temporary file cannot be read, `execFile` is not called at all (the read
throws before the platform test), so it is not called exactly once; nor is it
called when the temporary directory cannot be made.  On Linux, with a bridge
that has no `convertWithOptions`, the one bridge call is
`convert(bytes, 'pdf', null, cb)`: the original file name `sample.txt` is not
handed to the bridge. -/
theorem C6_counterexample_no_invocation :
    winHost.platform = "win32"
      ∧ (convertRoute winHost winFsBare { file := some winFile }).trace.countP Effect.isExec = 0
      ∧ (convertRoute winHost winFsBare { file := some winFile }).trace
          = [.readFileSync "uploads\\f00", .unlink "uploads\\f00"]
      ∧ (∃ r, (convertRoute winHost winFsBare { file := some winFile }).response = some r
          ∧ r.status = 500)
      ∧ (convertRoute winHost winFsNoTmp { file := some winFile }).trace.countP Effect.isExec = 0
      ∧ (convertRoute winHost winFsNoTmp { file := some winFile }).trace
          = [.readFileSync "uploads\\f00", .mkdtempSync "C:\\tmp\\lo-out-",
             .unlink "uploads\\f00"]
      ∧ linuxFile.originalname = "sample.txt"
      ∧ (convertRoute linuxHostLegacy linuxFs { file := some linuxFile }).trace
          = [.readFileSync "uploads/f00",
             .bridge { fn := .convert, document := [104, 105], format := "pdf",
                       options := none },
             .unlink "uploads/f00"] := by
  refine ⟨rfl, by decide, by decide, ⟨_, rfl, rfl⟩, by decide, by decide, rfl, by decide⟩

/-- C7: on win32, after the process has called back without error (the output
directory still being a directory, with entries `files`), the only path whose
existence the route tests is `outDir` joined with `<stem>.pdf`, `<stem>` being
`basename(original, extname(original))`; if a file is there, its bytes are
sent with status 200; if nothing is there, the response is status 500 with
`error` equal to `Converted file not found; outdir files: ` followed by the
entries joined by `, `. -/
theorem C7_output_discovery (h : Host) (fs fs1 fs2 fs3 : FS) (file : UploadedFile)
    (input : Bytes) (outDir : String) (so se : Option String) (files : List String)
    (hwin : h.platform = "win32")
    (hread : readFileSync fs file.path = .ok input)
    (hmk : mkdtempSync h.path fs (h.path.join h.tmpdir "lo-out-") h.mkdtempSuffix
      = .ok (outDir, fs1))
    (hcp : copyFileSync h.path fs1 file.path (h.path.join outDir (originalOf h.path file))
      = .ok fs2)
    (hex : h.execFile (sofficeCmdOf h)
        (argsOf outDir (h.path.join outDir (originalOf h.path file))) (execOptsOf h) fs2
      = .callback none so se fs3)
    (hls : readdirSync h.path fs3 outDir = .ok files) :
    (∀ p, Effect.existsSync p ∈ (convertRoute h fs { file := some file }).trace
        ↔ p = h.path.join outDir
              (h.path.basename (originalOf h.path file) (h.path.extname (originalOf h.path file))
                ++ ".pdf"))
      ∧ (∀ b,
          fs3.node (h.path.join outDir
              (h.path.basename (originalOf h.path file) (h.path.extname (originalOf h.path file))
                ++ ".pdf")) = some (.file b) →
          (convertRoute h fs { file := some file }).response
            = some { status := 200, headers := pdfHeaders, body := .send b })
      ∧ (fs3.node (h.path.join outDir
              (h.path.basename (originalOf h.path file) (h.path.extname (originalOf h.path file))
                ++ ".pdf")) = none →
          (convertRoute h fs { file := some file }).response
            = some { status := 500, headers := [],
                     body := .json (.str ("Converted file not found; outdir files: "
                       ++ ", ".intercalate files)) }) := by
  obtain ⟨hdir, hfiles⟩ := readdirSync_ok _ _ _ _ hls
  have htry := tryBlock_win h fs file input hwin hread
  have hbr := winBranch_exec_ok h fs fs1 fs2 fs3 file.path (originalOf h.path file) outDir so se
    hmk hcp hex
  rw [← outPathOf_eq]
  refine ⟨?_, ?_, ?_⟩
  · intro p
    rw [route_trace, htry.2.2, hbr.2.2]
    have hmem := afterExec_exists_effect h.path fs3 outDir (originalOf h.path file) hdir p
    constructor
    · intro hp
      simp only [List.mem_append, List.mem_cons, List.mem_singleton, List.not_mem_nil,
        reduceCtorEq, false_or, or_false] at hp
      rcases hp with hp | hp
      · exact hmem.mp hp
      · split at hp <;> simp at hp
    · intro hp
      simp only [List.mem_append, List.mem_cons]
      exact Or.inl (Or.inr (Or.inr (hmem.mpr hp)))
  · intro b hb
    rw [route_response, htry.1, hbr.1, (afterExec_found h.path fs3 outDir _ b hdir hb).1]
    rfl
  · intro hnone
    rw [route_response, htry.1, hbr.1, (afterExec_missing h.path fs3 outDir _ hdir hnone).1,
      hfiles]
    simp only [respond]
    rw [errorField_error _ (append_ne_empty_left _ _ (by decide))]

/-- C7 on the Windows example hosts: a process that writes nothing, and one
that writes `sample.pdf`. -/
theorem C7_output_discovery_witness :
    (convertRoute winHostSilent winFs { file := some winFile }).response
        = some { status := 500, headers := [],
                 body := .json (.str "Converted file not found; outdir files: sample.txt") }
      ∧ (convertRoute winHost winFs { file := some winFile }).response
        = some { status := 200, headers := pdfHeaders, body := .send pdfBytes } :=
  ⟨(C7_output_discovery winHostSilent winFs _ _ _ winFile [104, 105] "C:\\tmp\\lo-out-a1b2c3"
      none none ["sample.txt"] rfl rfl rfl rfl rfl rfl).2.2 (by decide),
   (C7_output_discovery winHost winFs _ _ _ winFile [104, 105] "C:\\tmp\\lo-out-a1b2c3"
      (some "convert") none ["sample.pdf", "sample.txt"] rfl rfl rfl rfl rfl rfl).2.1
      pdfBytes (by decide)⟩

/-- C8: on win32, when the external process calls back with an error whose
message is `m`, with stdout `o` and stderr `s`, the response is status 500 and
its `error` field is `m`, a newline, `s`, a newline, `o` (the empty string for
an absent `s` or `o`). -/
theorem C8_process_error_message (h : Host) (fs fs1 fs2 fs3 : FS) (file : UploadedFile)
    (input : Bytes) (outDir m : String) (o s : Option String)
    (hwin : h.platform = "win32")
    (hread : readFileSync fs file.path = .ok input)
    (hmk : mkdtempSync h.path fs (h.path.join h.tmpdir "lo-out-") h.mkdtempSuffix
      = .ok (outDir, fs1))
    (hcp : copyFileSync h.path fs1 file.path (h.path.join outDir (originalOf h.path file))
      = .ok fs2)
    (hex : h.execFile (sofficeCmdOf h)
        (argsOf outDir (h.path.join outDir (originalOf h.path file))) (execOptsOf h) fs2
      = .callback (some m) o s fs3) :
    (convertRoute h fs { file := some file }).response
      = some { status := 500, headers := [],
               body := .json (.str (m ++ "\n" ++ s.getD "" ++ "\n" ++ o.getD "")) } := by
  rw [route_response, (tryBlock_win h fs file input hwin hread).1,
    (winBranch_exec_error h fs fs1 fs2 fs3 file.path _ outDir m o s hmk hcp hex).1]
  simp only [respond, optOr_empty]
  rw [errorField_error]
  refine append_ne_empty_left _ _ (append_ne_empty_left _ _ (append_ne_empty_left _ _ ?_))
  exact append_ne_empty_right _ _ (by decide)

/-- C8 on the Windows example host whose process fails. -/
theorem C8_process_error_message_witness :
    (convertRoute winHostFails winFs { file := some winFile }).response
      = some { status := 500, headers := [],
               body := .json (.str
                 "Command failed: soffice\nError: source file could not be loaded\nout") } :=
  C8_process_error_message winHostFails winFs _ _ _ winFile [104, 105] "C:\\tmp\\lo-out-a1b2c3"
    "Command failed: soffice" (some "out") (some "Error: source file could not be loaded")
    rfl rfl rfl rfl rfl

/-- C9: `convertAsync` calls the bridge exactly once.  If the first thing the
bridge does is to call back with an error `e` (a truthy first argument), the
promise is rejected with `e` itself; if it calls back without error, the
promise is fulfilled with the bytes handed over; if the call throws `e`, the
promise is rejected with `e` itself.  Once settled the promise keeps its
state, whatever the bridge does afterwards. -/
theorem C9_convertAsync_settles_once (h : Host) (document : Bytes) (format fileName : String) :
    (convertAsync h document format fileName).2
        = [Effect.bridge (bridgeCallOf h document format fileName)]
      ∧ (convertAsync h document format fileName).2.countP Effect.isBridge = 1
      ∧ (∀ e done rest,
          (h.bridge (bridgeCallOf h document format fileName)).early = (e, done) :: rest →
          e.truthy = true →
          (convertAsync h document format fileName).1 = .rejected e)
      ∧ (∀ e done rest,
          (h.bridge (bridgeCallOf h document format fileName)).early = (e, done) :: rest →
          e.truthy = false →
          (convertAsync h document format fileName).1 = .fulfilled done)
      ∧ (∀ e,
          (h.bridge (bridgeCallOf h document format fileName)).early = [] →
          (h.bridge (bridgeCallOf h document format fileName)).thrown = some e →
          (convertAsync h document format fileName).1 = .rejected e)
      ∧ (∀ e done rest,
          (h.bridge (bridgeCallOf h document format fileName)).early = [] →
          (h.bridge (bridgeCallOf h document format fileName)).thrown = none →
          (h.bridge (bridgeCallOf h document format fileName)).late = (e, done) :: rest →
          (convertAsync h document format fileName).1
            = if e.truthy then .rejected e else .fulfilled done)
      ∧ (∀ k,
          (((h.bridge (bridgeCallOf h document format fileName)).early.take k).foldl
              onCallback .pending).settled = true →
          (convertAsync h document format fileName).1
            = ((h.bridge (bridgeCallOf h document format fileName)).early.take k).foldl
                onCallback .pending)
      ∧ (∀ p c t, p.settled = true → onCallback p c = p ∧ onThrow p t = p) := by
  refine ⟨rfl, rfl, ?_, ?_, ?_, ?_, ?_, ?_⟩
  · intro e done rest hearly htruthy
    have hk := settle_of_early_prefix (h.bridge (bridgeCallOf h document format fileName)) 1
    simp only [hearly, List.take_succ_cons, List.take_zero, List.foldl_cons, List.foldl_nil,
      onCallback, htruthy, ↓reduceIte, PromiseState.reject, PromiseState.settled,
      forall_const] at hk
    simpa [convertAsync] using hk
  · intro e done rest hearly htruthy
    have hk := settle_of_early_prefix (h.bridge (bridgeCallOf h document format fileName)) 1
    simp only [hearly, List.take_succ_cons, List.take_zero, List.foldl_cons, List.foldl_nil,
      onCallback, htruthy, Bool.false_eq_true, ↓reduceIte, PromiseState.resolve,
      PromiseState.settled, forall_const] at hk
    simpa [convertAsync] using hk
  · intro e hearly hthrown
    simp only [convertAsync, settle, hearly, hthrown, List.foldl_nil, onThrow,
      PromiseState.reject]
    exact foldl_onCallback_of_settled _ _ rfl
  · intro e done rest hearly hthrown hlate
    simp only [convertAsync, settle, hearly, hthrown, hlate, List.foldl_nil, onThrow,
      List.foldl_cons]
    rw [foldl_onCallback_of_settled _ _ (onCallback_pending_settled _)]
    simp only [onCallback, PromiseState.reject, PromiseState.resolve]
  · intro k hk
    exact settle_of_early_prefix _ k hk
  · intro p c t hp
    exact ⟨onCallback_of_settled p c hp, onThrow_of_settled p t hp⟩

/-- C9 on the Linux example hosts: a bridge that converts, one that reports an
`Error`, one that throws. -/
theorem C9_convertAsync_settles_once_witness :
    (convertAsync linuxHost [104, 105] "pdf" "sample.txt").1 = .fulfilled pdfBytes
      ∧ (convertAsync linuxHostRejects [104, 105] "pdf" "sample.txt").1
        = .rejected (newError "soffice: command not found")
      ∧ (convertAsync linuxHostThrows [104, 105] "pdf" "sample.txt").1 = .rejected (.str "")
      ∧ (convertAsync linuxHost [104, 105] "pdf" "sample.txt").2.countP Effect.isBridge = 1 :=
  ⟨(C9_convertAsync_settles_once linuxHost [104, 105] "pdf" "sample.txt").2.2.2.2.2.1
      .null pdfBytes [] rfl rfl rfl,
   (C9_convertAsync_settles_once linuxHostRejects [104, 105] "pdf" "sample.txt").2.2.2.2.2.1
      (newError "soffice: command not found") [] [] rfl rfl rfl,
   (C9_convertAsync_settles_once linuxHostThrows [104, 105] "pdf" "sample.txt").2.2.2.2.1
      (.str "") rfl rfl,
   (C9_convertAsync_settles_once linuxHost [104, 105] "pdf" "sample.txt").2.1⟩

/-- C10 (amended): when `LIBRE_OFFICE_EXE` is set to a non-empty path, every
`execFile` call of the route has that path as its command and the directory
of that path as `cwd`; every bridge call made through `convertWithOptions`
carries `execOptions.cwd` equal to that directory, whereas the fallback
`convert` (a bridge without `convertWithOptions`) is given no options at all.
When the variable is unset or empty, every `execFile` call has the command
`soffice` and no `cwd`, and no bridge call carries `execOptions`. -/
theorem C10_executable_override (h : Host) (fs : FS) (file : UploadedFile) :
    (∀ exe, h.LIBRE_OFFICE_EXE = some exe → exe ≠ "" →
        (∀ cmd args opts,
          Effect.execFile cmd args opts ∈ (convertRoute h fs { file := some file }).trace →
          cmd = exe ∧ opts = { cwd := some (h.path.dirname exe) })
        ∧ (∀ call,
          Effect.bridge call ∈ (convertRoute h fs { file := some file }).trace →
          (h.hasConvertWithOptions = true →
              call.fn = .convertWithOptions
              ∧ ∃ o, call.options = some o
                  ∧ o.execOptions = some { cwd := some (h.path.dirname exe) })
            ∧ (h.hasConvertWithOptions = false →
              call.fn = .convert ∧ call.options = none)))
      ∧ ((h.LIBRE_OFFICE_EXE = none ∨ h.LIBRE_OFFICE_EXE = some "") →
        (∀ cmd args opts,
          Effect.execFile cmd args opts ∈ (convertRoute h fs { file := some file }).trace →
          cmd = "soffice" ∧ opts = { cwd := none })
        ∧ (∀ call,
          Effect.bridge call ∈ (convertRoute h fs { file := some file }).trace →
          ∀ o, call.options = some o → o.execOptions = none)) := by
  constructor
  · intro exe henv hne
    constructor
    · intro cmd args opts hmem
      obtain ⟨h1, h2⟩ := route_exec_mem h fs file cmd args opts hmem
      obtain ⟨g1, g2⟩ := override_set h exe henv hne
      exact ⟨h1.trans g1, h2.trans g2⟩
    · intro call hmem
      obtain ⟨input, hcall⟩ := route_bridge_mem h fs file call hmem
      subst hcall
      exact bridgeCallOf_set h exe henv hne input "pdf" _
  · intro henv
    constructor
    · intro cmd args opts hmem
      obtain ⟨h1, h2⟩ := route_exec_mem h fs file cmd args opts hmem
      obtain ⟨g1, g2⟩ := override_unset h henv
      exact ⟨h1.trans g1, h2.trans g2⟩
    · intro call hmem
      obtain ⟨input, hcall⟩ := route_bridge_mem h fs file call hmem
      subst hcall
      exact bridgeCallOf_unset h henv input "pdf" _

/-- C10 (amended) on the example hosts: the command and `cwd` of `execFile`
with and without `LIBRE_OFFICE_EXE`, and the `execOptions` of
`convertWithOptions`. -/
theorem C10_executable_override_witness :
    (Effect.execFile "C:\\LibreOffice\\program\\soffice.exe"
        ["--headless", "--convert-to", "pdf", "--outdir", "C:\\tmp\\lo-out-a1b2c3",
         "C:\\tmp\\lo-out-a1b2c3\\sample.txt"]
        { cwd := some "C:\\LibreOffice\\program" }
        ∈ (convertRoute winHostExe winFs { file := some winFile }).trace)
      ∧ ("C:\\LibreOffice\\program\\soffice.exe" = "C:\\LibreOffice\\program\\soffice.exe"
          ∧ ({ cwd := some "C:\\LibreOffice\\program" } : ExecOptions)
              = { cwd := some (winHostExe.path.dirname "C:\\LibreOffice\\program\\soffice.exe") })
      ∧ (Effect.execFile "soffice"
          ["--headless", "--convert-to", "pdf", "--outdir", "C:\\tmp\\lo-out-a1b2c3",
           "C:\\tmp\\lo-out-a1b2c3\\sample.txt"]
          { cwd := none }
          ∈ (convertRoute winHost winFs { file := some winFile }).trace)
      ∧ ("soffice" = "soffice" ∧ ({ cwd := none } : ExecOptions) = { cwd := none })
      ∧ (Effect.bridge
          { fn := .convertWithOptions, document := [104, 105], format := "pdf",
            options := some { fileName := "sample.txt",
                              execOptions := some { cwd := some "/opt/libreoffice/program" } } }
          ∈ (convertRoute linuxHostExe linuxFs { file := some linuxFile }).trace)
      ∧ (∃ o, (some { fileName := "sample.txt",
                      execOptions := some { cwd := some "/opt/libreoffice/program" } }
                : Option BridgeOptions) = some o
          ∧ o.execOptions
            = some (ExecOptions.mk
                (some (linuxHostExe.path.dirname "/opt/libreoffice/program/soffice")))) :=
  ⟨by decide,
   ((C10_executable_override winHostExe winFs winFile).1
      "C:\\LibreOffice\\program\\soffice.exe" rfl (by decide)).1 _
      ["--headless", "--convert-to", "pdf", "--outdir", "C:\\tmp\\lo-out-a1b2c3",
       "C:\\tmp\\lo-out-a1b2c3\\sample.txt"] _ (by decide),
   by decide,
   ((C10_executable_override winHost winFs winFile).2 (Or.inl rfl)).1 _
      ["--headless", "--convert-to", "pdf", "--outdir", "C:\\tmp\\lo-out-a1b2c3",
       "C:\\tmp\\lo-out-a1b2c3\\sample.txt"] _ (by decide),
   by decide,
   ((((C10_executable_override linuxHostExe linuxFs linuxFile).1
      "/opt/libreoffice/program/soffice" rfl (by decide)).2
      { fn := .convertWithOptions, document := [104, 105], format := "pdf",
        options := some { fileName := "sample.txt",
                          execOptions := some { cwd := some "/opt/libreoffice/program" } } }
      (by decide)).1 rfl).2⟩

/-- C10 as stated fails: on a Linux host with `LIBRE_OFFICE_EXE` set and a
bridge without `convertWithOptions`, the one bridge call is the fallback
`convert`, which is given no options, hence no working directory. -/
theorem C10_counterexample_legacy_bridge :
    linuxHostLegacy.LIBRE_OFFICE_EXE = some "/opt/libreoffice/program/soffice"
      ∧ (convertRoute linuxHostLegacy linuxFs { file := some linuxFile }).trace.filter
          Effect.isBridge
        = [.bridge { fn := .convert, document := [104, 105], format := "pdf", options := none }]
      ∧ (convertRoute linuxHostLegacy linuxFs { file := some linuxFile }).response
        = some { status := 200, headers := pdfHeaders, body := .send pdfBytes } := by
  refine ⟨rfl, by decide, by decide⟩

end PdfConverter
